import Mathlib

/-!
Verification of the AutoClicker automation engine (src/autoclicker_app.py).

The Python program is shallowly embedded: the hotkey latch state machine,
the click/key worker loops, the macro recorder and player, and the settings
collection are translated into executable Lean definitions, and the spec's
claims are settled as theorems about those definitions.

Modelling conventions used throughout:
- Python sets of key tokens become Finset String.
- Python floats (delays, timestamps) become rationals.
- The single-shot threading.Event is modelled by the index of the first
  observation at which it reads set (stopTick : Option Nat, none = never);
  every is_set / wait call consumes one observation tick.
- Controller calls that can raise are modelled by failAt : Nat → Bool over
  an action-call counter; a failing call performs nothing and raises.
- Worker loops take a fuel argument; a run that exhausts fuel reports
  finished = false and theorems only speak about finished runs.
-/

/-- Container for a user-configured hotkey (class HotkeyBinding). -/
structure HotkeyBinding where
  label : String
  tokens : Finset String
  displayText : String

/-- HotkeyBinding.matches: bool(self.tokens) and self.tokens <= pressed. -/
def HotkeyBinding.matches (b : HotkeyBinding) (pressed : Finset String) : Prop :=
  b.tokens ≠ ∅ ∧ b.tokens ⊆ pressed

instance (b : HotkeyBinding) (pressed : Finset String) : Decidable (b.matches pressed) := by
  unfold HotkeyBinding.matches; infer_instance

/-- The hotkeys dict is modelled as an association list in dict insertion order. -/
abbrev Hotkeys := List (String × HotkeyBinding)

/-- _process_hotkey_triggers: walk the hotkeys dict; every binding that matches
the pressed set and is not latched fires (is appended to the returned fired
list) and its id is inserted into the latch. Returns (new latch, fired ids). -/
def processHotkeyTriggers (pressed : Finset String) :
    Hotkeys → Finset String → Finset String × List String
  | [], latch => (latch, [])
  | (hid, b) :: rest, latch =>
    if b.matches pressed ∧ hid ∉ latch then
      let r := processHotkeyTriggers pressed rest (insert hid latch)
      (r.1, hid :: r.2)
    else
      processHotkeyTriggers pressed rest latch

/-- Token set of the binding stored under an id (the code indexes the dict;
call sites only ever look up ids that are present). -/
def hotkeyTokens (hks : Hotkeys) (hid : String) : Finset String :=
  match hks.find? (fun p => p.1 == hid) with
  | some p => p.2.tokens
  | none => ∅

/-- _release_latched_hotkeys: drop every latched id whose binding no longer
matches the pressed set, i.e. keep exactly the still-matching ids. -/
def releaseLatchedHotkeys (hks : Hotkeys) (pressed latch : Finset String) : Finset String :=
  latch.filter (fun hid => hotkeyTokens hks hid ≠ ∅ ∧ hotkeyTokens hks hid ⊆ pressed)

/-- Outcome of _update_hotkey_binding: success, the empty-buffer warning, or
the collision warning naming the conflicting binding's label. -/
inductive HotkeyUpdateOutcome where
  | ok
  | emptyTokens
  | collision (label : String)
deriving DecidableEq

/-- FRIENDLY_NAMES table. -/
def FRIENDLY_NAMES : List (String × String) :=
  [("ctrl", "Ctrl"), ("shift", "Shift"), ("alt", "Alt"), ("cmd", "Cmd"),
   ("enter", "Enter"), ("space", "Space"), ("tab", "Tab"), ("esc", "Esc")]

/-- modifier_priority list inside _format_tokens. -/
def modifierPriority : List String := ["ctrl", "shift", "alt", "cmd"]

/-- Python str.capitalize: first character upper-cased, the rest lower-cased. -/
def pyCapitalize (s : String) : String := (s.take 1).toUpper ++ (s.drop 1).toLower

/-- Friendly rendering of one token inside _format_tokens. -/
def friendlyName (tok : String) : String :=
  match FRIENDLY_NAMES.find? (fun p => p.1 == tok) with
  | some p => p.2
  | none =>
    if tok.startsWith "f" && tok.drop 1 ≠ "" && (tok.drop 1).all Char.isDigit then
      tok.toUpper
    else if tok.startsWith "vk_" then
      tok.replace "vk_" "VK"
    else if tok.length = 1 then
      tok.toUpper
    else
      pyCapitalize tok

/-- _format_tokens: modifiers first in priority order, the rest sorted,
each rendered via the friendly table, joined with " + " ("Unset" if empty). -/
def formatTokens (tokens : Finset String) : String :=
  let toks := tokens.sort (· ≤ ·)
  let modifiers := modifierPriority.filter (fun m => toks.contains m)
  let others := toks.filter (fun t => !modifierPriority.contains t)
  let ordered := modifiers ++ others
  let friendly := ordered.map friendlyName
  if friendly.isEmpty then "Unset" else String.intercalate " + " friendly

/-- Collision test inside _update_hotkey_binding: a different binding holding
an identical token set. -/
def collidesWith (hotkeyId : String) (tokens : Finset String)
    (p : String × HotkeyBinding) : Bool :=
  decide (p.1 ≠ hotkeyId ∧ p.2.tokens = tokens)

/-- _update_hotkey_binding: reject an empty token set; reject a token set that
exactly equals another binding's set (warning names that binding's label, the
first one in dict order); otherwise replace the target binding's tokens. -/
def updateHotkeyBinding (hks : Hotkeys) (hotkeyId : String) (tokens : Finset String) :
    Hotkeys × HotkeyUpdateOutcome :=
  if tokens = ∅ then (hks, .emptyTokens)
  else
    match hks.find? (collidesWith hotkeyId tokens) with
    | some p => (hks, .collision p.2.label)
    | none =>
      (hks.map (fun p =>
        if p.1 = hotkeyId then
          (p.1, { label := p.2.label, tokens := tokens, displayText := formatTokens tokens })
        else p), .ok)

/-- Listener-side hotkey state: the hotkeys dict, the pressed-token set, the
trigger latch, and the rebind-recording target and buffer. -/
structure HotkeyState where
  hotkeys : Hotkeys
  pressed : Finset String
  latch : Finset String
  recordingTarget : Option String
  recordingBuffer : Finset String

/-- _handle_key_press: add the token to the pressed set; while a rebind is
being recorded, buffer the token and skip trigger evaluation; otherwise run
_process_hotkey_triggers. Returns the new state and the fired ids. -/
def handleKeyPress (st : HotkeyState) (token : String) : HotkeyState × List String :=
  let pressed := insert token st.pressed
  match st.recordingTarget with
  | some _ =>
    ({ st with pressed := pressed, recordingBuffer := insert token st.recordingBuffer }, [])
  | none =>
    let r := processHotkeyTriggers pressed st.hotkeys st.latch
    ({ st with pressed := pressed, latch := r.1 }, r.2)

/-- _handle_key_release: discard the token from the pressed set; if a rebind is
being recorded and the pressed set just emptied, commit the buffered tokens via
_update_hotkey_binding (or drop an empty buffer) and end recording; otherwise
run _release_latched_hotkeys. -/
def handleKeyRelease (st : HotkeyState) (token : String) : HotkeyState :=
  let pressed := st.pressed.erase token
  match st.recordingTarget with
  | some target =>
    if pressed = ∅ then
      if st.recordingBuffer = ∅ then
        { st with pressed := pressed, recordingTarget := none, recordingBuffer := ∅ }
      else
        let r := updateHotkeyBinding st.hotkeys target st.recordingBuffer
        { st with hotkeys := r.1, pressed := pressed,
                  recordingTarget := none, recordingBuffer := ∅ }
    else
      { st with pressed := pressed,
                latch := releaseLatchedHotkeys st.hotkeys pressed st.latch }
  | none =>
    { st with pressed := pressed,
              latch := releaseLatchedHotkeys st.hotkeys pressed st.latch }

theorem processHotkeyTriggers_latch_eq (pressed : Finset String) (hks : Hotkeys)
    (latch : Finset String) :
    (processHotkeyTriggers pressed hks latch).1 =
      latch ∪ (processHotkeyTriggers pressed hks latch).2.toFinset := by
  induction hks generalizing latch with
  | nil => simp [processHotkeyTriggers]
  | cons hd rest ih =>
    obtain ⟨hid, b⟩ := hd
    by_cases hc : b.matches pressed ∧ hid ∉ latch
    · simp only [processHotkeyTriggers, if_pos hc, List.toFinset_cons]
      rw [ih]
      ext x
      simp [Finset.mem_union, Finset.mem_insert]
    · simp only [processHotkeyTriggers, if_neg hc]
      exact ih latch

theorem mem_processHotkeyTriggers_fired (pressed : Finset String) (hks : Hotkeys)
    (latch : Finset String) (hid : String) :
    hid ∈ (processHotkeyTriggers pressed hks latch).2 ↔
      hid ∉ latch ∧ ∃ b, (hid, b) ∈ hks ∧ b.matches pressed := by
  induction hks generalizing latch with
  | nil => simp [processHotkeyTriggers]
  | cons hd rest ih =>
    obtain ⟨h, b⟩ := hd
    by_cases hc : b.matches pressed ∧ h ∉ latch
    · simp only [processHotkeyTriggers, if_pos hc]
      constructor
      · intro hmem
        rcases List.mem_cons.mp hmem with rfl | hmem'
        · exact ⟨hc.2, b, List.mem_cons_self _ _, hc.1⟩
        · obtain ⟨hnot, b', hmem'', hm⟩ := (ih (insert h latch)).mp hmem'
          exact ⟨fun hl => hnot (Finset.mem_insert_of_mem hl), b',
            List.mem_cons_of_mem _ hmem'', hm⟩
      · rintro ⟨hnot, b', hmem', hm⟩
        rcases List.mem_cons.mp hmem' with heq | hrest
        · exact List.mem_cons.mpr (Or.inl (congrArg Prod.fst heq))
        · by_cases hh : hid = h
          · exact List.mem_cons.mpr (Or.inl hh)
          · refine List.mem_cons.mpr (Or.inr ?_)
            exact (ih (insert h latch)).mpr
              ⟨fun hm' => (Finset.mem_insert.mp hm').elim hh hnot, b', hrest, hm⟩
    · simp only [processHotkeyTriggers, if_neg hc]
      rw [ih]
      constructor
      · rintro ⟨hnot, b', hmem, hm⟩
        exact ⟨hnot, b', List.mem_cons_of_mem _ hmem, hm⟩
      · rintro ⟨hnot, b', hmem, hm⟩
        rcases List.mem_cons.mp hmem with heq | hrest
        · exfalso
          have h1 : hid = h := congrArg Prod.fst heq
          have h2 : b' = b := congrArg Prod.snd heq
          subst h1; subst h2
          exact hc ⟨hm, hnot⟩
        · exact ⟨hnot, b', hrest, hm⟩

theorem mem_releaseLatchedHotkeys (hks : Hotkeys) (pressed latch : Finset String)
    (hid : String) :
    hid ∈ releaseLatchedHotkeys hks pressed latch ↔
      hid ∈ latch ∧ hotkeyTokens hks hid ≠ ∅ ∧ hotkeyTokens hks hid ⊆ pressed := by
  simp [releaseLatchedHotkeys, Finset.mem_filter]

/-- C1: with no rebind recording in progress, processing a key press fires
exactly the bindings whose token set is non-empty, is a subset of the updated
pressed set, and whose id is not yet latched; every fired id is added to the
latch (and the latch only grows on a press); processing a key release keeps in
the latch exactly those ids whose token set still matches the reduced pressed
set, removing all others. -/
theorem hotkey_edge_trigger_latch (st : HotkeyState) (h : st.recordingTarget = none)
    (t u : String) :
    (∀ hid, hid ∈ (handleKeyPress st t).2 ↔
        hid ∉ st.latch ∧ ∃ b, (hid, b) ∈ st.hotkeys ∧ b.matches (insert t st.pressed)) ∧
    (handleKeyPress st t).1.latch = st.latch ∪ (handleKeyPress st t).2.toFinset ∧
    st.latch ⊆ (handleKeyPress st t).1.latch ∧
    (∀ hid, hid ∈ (handleKeyRelease st u).latch ↔
        hid ∈ st.latch ∧ hotkeyTokens st.hotkeys hid ≠ ∅ ∧
          hotkeyTokens st.hotkeys hid ⊆ st.pressed.erase u) := by
  refine ⟨?_, ?_, ?_, ?_⟩
  · intro hid
    simp only [handleKeyPress, h]
    exact mem_processHotkeyTriggers_fired _ _ _ _
  · simp only [handleKeyPress, h]
    exact processHotkeyTriggers_latch_eq _ _ _
  · simp only [handleKeyPress, h]
    rw [processHotkeyTriggers_latch_eq]
    exact Finset.subset_union_left
  · intro hid
    simp only [handleKeyRelease, h]
    exact mem_releaseLatchedHotkeys _ _ _ _

/-- Default hotkeys dict created in __init__, used as the witness state. -/
def defaultHotkeys : Hotkeys :=
  [("mouse_toggle", { label := "Toggle Mouse Clicker", tokens := {"f6"}, displayText := "F6" }),
   ("key_toggle", { label := "Toggle Key Macro", tokens := {"f8"}, displayText := "F8" }),
   ("panic", { label := "Emergency Halt", tokens := {"f7"}, displayText := "F7" })]

/-- Witness state for the hotkey theorems: defaults, nothing pressed or latched. -/
def hotkeyWitnessState : HotkeyState :=
  { hotkeys := defaultHotkeys, pressed := ∅, latch := ∅,
    recordingTarget := none, recordingBuffer := ∅ }

theorem hotkey_edge_trigger_latch_witness :
    hotkeyWitnessState.recordingTarget = none ∧
    ((∀ hid, hid ∈ (handleKeyPress hotkeyWitnessState "f6").2 ↔
        hid ∉ hotkeyWitnessState.latch ∧ ∃ b, (hid, b) ∈ hotkeyWitnessState.hotkeys ∧
          b.matches (insert "f6" hotkeyWitnessState.pressed)) ∧
    (handleKeyPress hotkeyWitnessState "f6").1.latch =
        hotkeyWitnessState.latch ∪ (handleKeyPress hotkeyWitnessState "f6").2.toFinset ∧
    hotkeyWitnessState.latch ⊆ (handleKeyPress hotkeyWitnessState "f6").1.latch ∧
    (∀ hid, hid ∈ (handleKeyRelease hotkeyWitnessState "f6").latch ↔
        hid ∈ hotkeyWitnessState.latch ∧
          hotkeyTokens hotkeyWitnessState.hotkeys hid ≠ ∅ ∧
          hotkeyTokens hotkeyWitnessState.hotkeys hid ⊆ hotkeyWitnessState.pressed.erase "f6")) :=
  ⟨rfl, hotkey_edge_trigger_latch hotkeyWitnessState rfl "f6" "f6"⟩


theorem collidesWith_eq_true (hotkeyId : String) (tokens : Finset String)
    (p : String × HotkeyBinding) :
    collidesWith hotkeyId tokens p = true ↔ p.1 ≠ hotkeyId ∧ p.2.tokens = tokens := by
  simp [collidesWith]

/-- C7: a rebind with an empty buffered token set, or with a token set exactly
equal to another binding's set, is rejected (empty-tokens warning, or a
collision warning naming the conflicting binding) and leaves every binding
unchanged; otherwise the outcome is ok and afterwards the bindings are exactly
the old ones except that every entry under the target id carries the buffered
tokens (label preserved). -/
theorem rebind_collision_rejected (hks : Hotkeys) (hid : String) (tokens : Finset String) :
    (tokens = ∅ → updateHotkeyBinding hks hid tokens = (hks, .emptyTokens)) ∧
    (tokens ≠ ∅ → (∃ q ∈ hks, q.1 ≠ hid ∧ q.2.tokens = tokens) →
      (updateHotkeyBinding hks hid tokens).1 = hks ∧
      ∃ q ∈ hks, q.1 ≠ hid ∧ q.2.tokens = tokens ∧
        (updateHotkeyBinding hks hid tokens).2 = .collision q.2.label) ∧
    (tokens ≠ ∅ → (∀ q ∈ hks, q.1 = hid ∨ q.2.tokens ≠ tokens) →
      (updateHotkeyBinding hks hid tokens).2 = .ok ∧
      (∀ i b', i ≠ hid →
        ((i, b') ∈ (updateHotkeyBinding hks hid tokens).1 ↔ (i, b') ∈ hks)) ∧
      (∀ b', (hid, b') ∈ (updateHotkeyBinding hks hid tokens).1 ↔
        ∃ b, (hid, b) ∈ hks ∧
          b' = { label := b.label, tokens := tokens,
                 displayText := formatTokens tokens })) := by
  refine ⟨?_, ?_, ?_⟩
  · intro he
    simp [updateHotkeyBinding, he]
  · intro hne hex
    have hsome : (hks.find? (collidesWith hid tokens)).isSome := by
      rw [List.find?_isSome]
      obtain ⟨q, hq, hq1, hq2⟩ := hex
      exact ⟨q, hq, (collidesWith_eq_true hid tokens q).mpr ⟨hq1, hq2⟩⟩
    obtain ⟨a, ha⟩ := Option.isSome_iff_exists.mp hsome
    have hmem : a ∈ hks := List.mem_of_find?_eq_some ha
    have hpa : a.1 ≠ hid ∧ a.2.tokens = tokens :=
      (collidesWith_eq_true hid tokens a).mp (List.find?_some ha)
    constructor
    · simp [updateHotkeyBinding, if_neg hne, ha]
    · exact ⟨a, hmem, hpa.1, hpa.2, by simp [updateHotkeyBinding, if_neg hne, ha]⟩
  · intro hne hall
    have hnone : hks.find? (collidesWith hid tokens) = none := by
      rw [List.find?_eq_none]
      intro q hq hcol
      obtain ⟨hq1, hq2⟩ := (collidesWith_eq_true hid tokens q).mp hcol
      rcases hall q hq with h1 | h2
      · exact hq1 h1
      · exact h2 hq2
    refine ⟨by simp [updateHotkeyBinding, if_neg hne, hnone], ?_, ?_⟩
    · intro i b' hi
      simp only [updateHotkeyBinding, if_neg hne, hnone, List.mem_map]
      constructor
      · rintro ⟨p, hp, heq⟩
        by_cases hph : p.1 = hid
        · rw [if_pos hph] at heq
          have h1 : p.1 = i := congrArg Prod.fst heq
          exact absurd (h1 ▸ hph : i = hid) hi
        · rw [if_neg hph] at heq
          exact heq ▸ hp
      · intro hmem
        exact ⟨(i, b'), hmem, by simp [hi]⟩
    · intro b'
      simp only [updateHotkeyBinding, if_neg hne, hnone, List.mem_map]
      constructor
      · rintro ⟨p, hp, heq⟩
        by_cases hph : p.1 = hid
        · rw [if_pos hph] at heq
          refine ⟨p.2, ?_, (congrArg Prod.snd heq).symm⟩
          have hp' : (p.1, p.2) ∈ hks := by
            rw [Prod.mk.eta]
            exact hp
          rw [hph] at hp'
          exact hp'
        · rw [if_neg hph] at heq
          exact absurd (congrArg Prod.fst heq) hph
      · rintro ⟨b, hb, rfl⟩
        exact ⟨(hid, b), hb, by simp⟩

theorem rebind_collision_rejected_witness :
    ({"f8"} : Finset String) ≠ ∅ ∧
    (∃ q ∈ defaultHotkeys, q.1 ≠ "mouse_toggle" ∧ q.2.tokens = ({"f8"} : Finset String)) ∧
    ((updateHotkeyBinding defaultHotkeys "mouse_toggle" {"f8"}).1 = defaultHotkeys ∧
      ∃ q ∈ defaultHotkeys, q.1 ≠ "mouse_toggle" ∧ q.2.tokens = ({"f8"} : Finset String) ∧
        (updateHotkeyBinding defaultHotkeys "mouse_toggle" {"f8"}).2 = .collision q.2.label) := by
  have hne : ({"f8"} : Finset String) ≠ ∅ := by decide
  have hex : ∃ q ∈ defaultHotkeys, q.1 ≠ "mouse_toggle" ∧
      q.2.tokens = ({"f8"} : Finset String) := by
    refine ⟨("key_toggle",
      { label := "Toggle Key Macro", tokens := {"f8"}, displayText := "F8" }), ?_, ?_, rfl⟩
    · simp [defaultHotkeys]
    · decide
  exact ⟨hne, hex,
    (rebind_collision_rejected defaultHotkeys "mouse_toggle" {"f8"}).2.1 hne hex⟩

/-- Single recorded action for the Macro replay system (class MacroEvent).
Key values and buttons are identified by strings, positions by integer pairs. -/
structure MacroEvent where
  kind : String
  action : String
  delay : ℚ
  keyValue : Option String := none
  mouseButton : Option String := none
  position : Option (ℤ × ℤ) := none
deriving DecidableEq

/-- Recorder-side state: macro_recording / block_macro_capture flags, the
armed timestamp, the previous event's timestamp, and the event list. -/
structure MacroRecorderState where
  macroRecording : Bool
  blockMacroCapture : Bool
  macroStartTime : Option ℚ
  macroLastTimestamp : Option ℚ
  macroEvents : List MacroEvent

/-- _record_macro_event: when recording and capture is not blocked, compute the
delay as now minus the armed time for the first event and now minus the
previous event's timestamp afterwards, clamp it at zero, and append the event. -/
def recordMacroEvent (st : MacroRecorderState) (now : ℚ) (kind action : String)
    (keyValue : Option String) (mouseButton : Option String)
    (position : Option (ℤ × ℤ)) : MacroRecorderState :=
  if ¬st.macroRecording ∨ st.blockMacroCapture then st
  else
    let startTime := st.macroStartTime.getD now
    let delay :=
      match st.macroLastTimestamp with
      | none => now - startTime
      | some last => now - last
    { st with
        macroStartTime := some startTime,
        macroLastTimestamp := some now,
        macroEvents := st.macroEvents ++
          [{ kind := kind, action := action, delay := max 0 delay,
             keyValue := keyValue, mouseButton := mouseButton, position := position }] }

/-- start_macro_recording: clear the events, arm the recorder at the current
perf-counter time, and reset the previous-event timestamp. -/
def startMacroRecording (t0 : ℚ) : MacroRecorderState :=
  { macroRecording := true, blockMacroCapture := false,
    macroStartTime := some t0, macroLastTimestamp := none, macroEvents := [] }

/-- A recording session: fold _record_macro_event over a list of captured raw
events, each given as (timestamp, kind, action). -/
def recordSession (st : MacroRecorderState) : List (ℚ × String × String) → MacroRecorderState
  | [] => st
  | (t, kind, action) :: rest =>
    recordSession (recordMacroEvent st t kind action none none none) rest

/-- Relative-delay encoding of a list of timestamps against a previous time. -/
def relativeDelays (prev : ℚ) : List ℚ → List ℚ
  | [] => []
  | t :: ts => (t - prev) :: relativeDelays t ts

theorem recordSession_delays (raw : List (ℚ × String × String)) (st : MacroRecorderState)
    (prev : ℚ) (hrec : st.macroRecording = true) (hblk : st.blockMacroCapture = false)
    (hlast : st.macroLastTimestamp = some prev)
    (hchain : List.Chain' (· ≤ ·) (prev :: raw.map Prod.fst)) :
    (recordSession st raw).macroEvents.map MacroEvent.delay =
      st.macroEvents.map MacroEvent.delay ++ relativeDelays prev (raw.map Prod.fst) := by
  induction raw generalizing st prev with
  | nil => simp [recordSession, relativeDelays]
  | cons hd rest ih =>
    obtain ⟨t, kind, action⟩ := hd
    have hle : prev ≤ t := (List.chain'_cons.mp hchain).1
    have hclamp : max 0 (t - prev) = t - prev := by
      rw [max_eq_right]
      linarith
    simp only [recordSession]
    rw [ih (recordMacroEvent st t kind action none none none) t]
    · simp [recordMacroEvent, hrec, hblk, hlast, hclamp, relativeDelays]
    · simp [recordMacroEvent, hrec, hblk]
    · simp [recordMacroEvent, hrec, hblk]
    · simp [recordMacroEvent, hrec, hblk]
    · exact (List.chain'_cons.mp hchain).2

/-- C6: for a recording session armed at time t0 that captures raw events at
monotone timestamps, the stored delay of the first event is the time elapsed
since arming, and the stored delay of each later event is the time elapsed
since the previous event - the relative-delay encoding. -/
theorem macro_recording_relative_delays (t0 : ℚ) (raw : List (ℚ × String × String))
    (hchain : List.Chain' (· ≤ ·) (t0 :: raw.map Prod.fst)) :
    (recordSession (startMacroRecording t0) raw).macroEvents.map MacroEvent.delay =
      relativeDelays t0 (raw.map Prod.fst) := by
  cases raw with
  | nil => simp [recordSession, relativeDelays, startMacroRecording]
  | cons hd rest =>
    obtain ⟨t, kind, action⟩ := hd
    have hle : t0 ≤ t := (List.chain'_cons.mp hchain).1
    have hclamp : max 0 (t - t0) = t - t0 := by
      rw [max_eq_right]
      linarith
    simp only [recordSession]
    rw [recordSession_delays rest _ t]
    · simp [recordMacroEvent, startMacroRecording, hclamp, relativeDelays]
    · simp [recordMacroEvent, startMacroRecording]
    · simp [recordMacroEvent, startMacroRecording]
    · simp [recordMacroEvent, startMacroRecording]
    · exact (List.chain'_cons.mp hchain).2

theorem macro_recording_relative_delays_witness :
    List.Chain' (· ≤ ·) ((10 : ℚ) ::
      ([((11 : ℚ), "key", "press"), ((13 : ℚ), "key", "release"),
        ((20 : ℚ), "mouse", "press")].map Prod.fst)) ∧
    (recordSession (startMacroRecording 10)
        [((11 : ℚ), "key", "press"), ((13 : ℚ), "key", "release"),
         ((20 : ℚ), "mouse", "press")]).macroEvents.map MacroEvent.delay =
      relativeDelays 10 ([((11 : ℚ), "key", "press"), ((13 : ℚ), "key", "release"),
        ((20 : ℚ), "mouse", "press")].map Prod.fst) :=
  ⟨by norm_num [List.chain'_cons], macro_recording_relative_delays 10 _
    (by norm_num [List.chain'_cons])⟩

/-- Immutable snapshot of click parameters for a run (class ClickSettings).
The mouse button is identified by its UI string. -/
structure ClickSettings where
  button : String
  mode : String
  base_interval : ℚ
  jitter : ℚ
  burst_count : ℤ
  start_delay : ℚ
  limit_enabled : Bool
  limit_count : ℤ
deriving DecidableEq

/-- Immutable snapshot of keyboard automation parameters (class KeyPressSettings).
Sequence entries are the resolved lowercase key tokens. -/
structure KeyPressSettings where
  sequence : List String
  mode : String
  base_interval : ℚ
  jitter : ℚ
  burst_count : ℤ
  start_delay : ℚ
  limit_enabled : Bool
  limit_count : ℤ
deriving DecidableEq

/-- BUTTON_MAP keys: the supported mouse button selections. -/
def BUTTON_MAP : List String := ["left", "right", "middle"]

/-- Raw values read from the click-tab UI variables at start time. -/
structure RawClickSettings where
  delayMs : ℚ
  jitterMs : ℚ
  burst : ℤ
  startDelayS : ℚ
  limitCount : ℤ
  limitEnabled : Bool
  button : String
  mode : String

/-- _collect_settings: validate the click-tab values in source order and build
the ClickSettings snapshot; the base interval is converted to seconds and
silently floored at 0.005 s, the jitter converted to seconds unfloored. -/
def collectSettings (raw : RawClickSettings) : Except String ClickSettings :=
  if raw.delayMs ≤ 0 then .error "Delay per cycle must be greater than zero."
  else if raw.jitterMs < 0 then .error "Random jitter cannot be negative."
  else if raw.jitterMs > raw.delayMs then .error "Random jitter should not exceed the base delay."
  else if raw.burst ≤ 0 then .error "Clicks per cycle must be at least 1."
  else if raw.startDelayS < 0 then .error "Start delay cannot be negative."
  else if raw.limitEnabled ∧ raw.limitCount ≤ 0 then .error "Click limit must be at least 1."
  else if raw.button ∉ BUTTON_MAP then .error "Unsupported mouse button selection."
  else if ¬(raw.mode = "single" ∨ raw.mode = "double" ∨ raw.mode = "hold") then
    .error "Invalid click mode selected."
  else .ok
    { button := raw.button, mode := raw.mode,
      base_interval := max (5 / 1000) (raw.delayMs / 1000),
      jitter := raw.jitterMs / 1000,
      burst_count := raw.burst,
      start_delay := raw.startDelayS,
      limit_enabled := raw.limitEnabled,
      limit_count := raw.limitCount }

/-- Character-level helper for Python str.split(sep): split a character list
at every separator occurrence. -/
def splitCharsAux (sep : Char) : List Char → List Char → List (List Char)
  | [], acc => [acc.reverse]
  | c :: cs, acc =>
    if c = sep then acc.reverse :: splitCharsAux sep cs []
    else splitCharsAux sep cs (c :: acc)

/-- Python str.split("+") on a string. -/
def pySplit (sep : Char) (s : String) : List String :=
  (splitCharsAux sep s.toList []).map String.mk

/-- Python str.strip(): drop whitespace from both ends. -/
def pyStrip (s : String) : String :=
  String.mk ((s.toList.dropWhile Char.isWhitespace).reverse.dropWhile
    Char.isWhitespace).reverse

/-- Python str.lower(). -/
def pyLower (s : String) : String := String.mk (s.toList.map Char.toLower)

/-- Key-token resolution loop of _parse_key_sequence: single characters stand
for themselves (lower-cased); longer tokens must name a keyboard.Key attribute,
modelled by the membership test isKnownKey; the first unknown token raises. -/
def resolveKeyTokens (isKnownKey : String → Bool) : List String → Except String (List String)
  | [] => .ok []
  | tok :: rest =>
    let lower := pyLower tok
    if lower.toList.length = 1 then
      (resolveKeyTokens isKnownKey rest).map (lower :: ·)
    else if isKnownKey lower then
      (resolveKeyTokens isKnownKey rest).map (lower :: ·)
    else .error ("Unknown key token: " ++ tok)

/-- _parse_key_sequence: split the entry on "+", trim, drop empties, reject an
empty list, then resolve every token. -/
def parseKeySequence (isKnownKey : String → Bool) (raw : String) :
    Except String (List String) :=
  let tokens := ((pySplit '+' raw).map pyStrip).filter (fun t => t ≠ "")
  if tokens = [] then .error "Enter at least one key for the macro."
  else resolveKeyTokens isKnownKey tokens

/-- Raw values read from the key-tab UI variables at start time. -/
structure RawKeySettings where
  sequence : String
  delayMs : ℚ
  jitterMs : ℚ
  burst : ℤ
  startDelayS : ℚ
  limitCount : ℤ
  limitEnabled : Bool
  mode : String

/-- _collect_key_settings: parse the key sequence, validate the key-tab values
in source order and build the KeyPressSettings snapshot; the base interval is
converted to seconds and silently floored at 0.01 s. -/
def collectKeySettings (isKnownKey : String → Bool) (raw : RawKeySettings) :
    Except String KeyPressSettings :=
  match parseKeySequence isKnownKey raw.sequence with
  | .error e => .error e
  | .ok seq =>
    if raw.delayMs ≤ 0 then .error "Delay per cycle must be greater than zero."
    else if raw.jitterMs < 0 then .error "Random jitter cannot be negative."
    else if raw.jitterMs > raw.delayMs then .error "Random jitter should not exceed the base delay."
    else if raw.burst ≤ 0 then .error "Cycles per batch must be at least 1."
    else if raw.startDelayS < 0 then .error "Start delay cannot be negative."
    else if raw.limitEnabled ∧ raw.limitCount ≤ 0 then .error "Cycle limit must be at least 1."
    else if ¬(raw.mode = "tap" ∨ raw.mode = "double" ∨ raw.mode = "hold") then
      .error "Invalid key mode selected."
    else .ok
      { sequence := seq, mode := raw.mode,
        base_interval := max (1 / 100) (raw.delayMs / 1000),
        jitter := raw.jitterMs / 1000,
        burst_count := raw.burst,
        start_delay := raw.startDelayS,
        limit_enabled := raw.limitEnabled,
        limit_count := raw.limitCount }

/-- Mouse-clicker run state touched by start_clicking. -/
structure ClickRunState where
  isRunning : Bool
  stopSet : Bool
  startTimestamp : Option ℚ
  lastElapsedSeconds : ℤ
  clicksRecorded : ℤ
  runReason : String
  holdPressed : Bool
deriving DecidableEq

/-- start_clicking: a no-op while running; on a validation error show it and
change nothing; otherwise reset the run state and start the worker thread.
Returns (new state, reported error, whether a thread was started). -/
def startClicking (st : ClickRunState) (raw : RawClickSettings) (now : ℚ) :
    ClickRunState × Option String × Bool :=
  if st.isRunning then (st, none, false)
  else
    match collectSettings raw with
    | .error e => (st, some e, false)
    | .ok _ =>
      ({ isRunning := true, stopSet := false, startTimestamp := some now,
         lastElapsedSeconds := 0, clicksRecorded := 0, runReason := "Running",
         holdPressed := false }, none, true)

/-- Key-macro run state touched by start_key_pressing. -/
structure KeyRunState where
  keyIsRunning : Bool
  keyStopSet : Bool
  keyStartTimestamp : Option ℚ
  keyLastElapsedSeconds : ℤ
  keyCyclesRecorded : ℤ
  keyRunReason : String
  keyHoldActive : Bool
  activeKeySequence : Option (List String)
deriving DecidableEq

/-- start_key_pressing: a no-op while running; on a validation error show it
and change nothing; otherwise reset the run state and start the worker thread.
Returns (new state, reported error, whether a thread was started). -/
def startKeyPressing (isKnownKey : String → Bool) (st : KeyRunState)
    (raw : RawKeySettings) (now : ℚ) : KeyRunState × Option String × Bool :=
  if st.keyIsRunning then (st, none, false)
  else
    match collectKeySettings isKnownKey raw with
    | .error e => (st, some e, false)
    | .ok s =>
      ({ keyIsRunning := true, keyStopSet := false, keyStartTimestamp := some now,
         keyLastElapsedSeconds := 0, keyCyclesRecorded := 0, keyRunReason := "Running",
         keyHoldActive := false, activeKeySequence := some s.sequence }, none, true)

/-- The conjunction of all constraints checked by _collect_settings. -/
def validRawClick (raw : RawClickSettings) : Prop :=
  0 < raw.delayMs ∧ 0 ≤ raw.jitterMs ∧ raw.jitterMs ≤ raw.delayMs ∧ 0 < raw.burst ∧
  0 ≤ raw.startDelayS ∧ (raw.limitEnabled → 0 < raw.limitCount) ∧
  raw.button ∈ BUTTON_MAP ∧ (raw.mode = "single" ∨ raw.mode = "double" ∨ raw.mode = "hold")

/-- The conjunction of the numeric and mode constraints checked by
_collect_key_settings (the sequence is handled separately by the parser). -/
def validRawKey (raw : RawKeySettings) : Prop :=
  0 < raw.delayMs ∧ 0 ≤ raw.jitterMs ∧ raw.jitterMs ≤ raw.delayMs ∧ 0 < raw.burst ∧
  0 ≤ raw.startDelayS ∧ (raw.limitEnabled → 0 < raw.limitCount) ∧
  (raw.mode = "tap" ∨ raw.mode = "double" ∨ raw.mode = "hold")

theorem collectSettings_error_of_invalid (raw : RawClickSettings)
    (h : raw.delayMs ≤ 0 ∨ raw.jitterMs < 0 ∨ raw.jitterMs > raw.delayMs ∨
      raw.burst ≤ 0 ∨ raw.startDelayS < 0 ∨ (raw.limitEnabled ∧ raw.limitCount ≤ 0)) :
    ∃ e, collectSettings raw = .error e := by
  unfold collectSettings
  split_ifs with h1 h2 h3 h4 h5 h6 h7 h8
  any_goals exact ⟨_, rfl⟩
  exfalso
  rcases h with h | h | h | h | h | h
  exacts [h1 h, h2 h, h3 h, h4 h, h5 h, h6 h]

theorem collectSettings_ok_of_valid (raw : RawClickSettings) (h : validRawClick raw) :
    collectSettings raw = .ok
      { button := raw.button, mode := raw.mode,
        base_interval := max (5 / 1000) (raw.delayMs / 1000),
        jitter := raw.jitterMs / 1000,
        burst_count := raw.burst,
        start_delay := raw.startDelayS,
        limit_enabled := raw.limitEnabled,
        limit_count := raw.limitCount } := by
  obtain ⟨h1, h2, h3, h4, h5, h6, h7, h8⟩ := h
  unfold collectSettings
  rw [if_neg (not_le.mpr h1), if_neg (not_lt.mpr h2), if_neg (not_lt.mpr h3),
    if_neg (not_le.mpr h4), if_neg (not_lt.mpr h5),
    if_neg (fun hc => absurd (h6 hc.1) (not_lt.mpr hc.2)),
    if_neg (fun hc => hc h7), if_neg (fun hc => hc h8)]

theorem collectKeySettings_ok_of_valid (isKnownKey : String → Bool)
    (raw : RawKeySettings) (seq : List String)
    (hseq : parseKeySequence isKnownKey raw.sequence = .ok seq) (h : validRawKey raw) :
    collectKeySettings isKnownKey raw = .ok
      { sequence := seq, mode := raw.mode,
        base_interval := max (1 / 100) (raw.delayMs / 1000),
        jitter := raw.jitterMs / 1000,
        burst_count := raw.burst,
        start_delay := raw.startDelayS,
        limit_enabled := raw.limitEnabled,
        limit_count := raw.limitCount } := by
  obtain ⟨h1, h2, h3, h4, h5, h6, h7⟩ := h
  unfold collectKeySettings
  simp only [hseq]
  rw [if_neg (not_le.mpr h1), if_neg (not_lt.mpr h2), if_neg (not_lt.mpr h3),
    if_neg (not_le.mpr h4), if_neg (not_lt.mpr h5),
    if_neg (fun hc => absurd (h6 hc.1) (not_lt.mpr hc.2)),
    if_neg (fun hc => hc h7)]

/-- C8: with the worker idle, a start request whose settings violate a
data-model constraint (non-positive interval, negative jitter, jitter above
the base interval, burst below one, negative start delay, enabled limit below
one - or, on the key side, an unknown key token) fails with a validation
error, starts no thread, and leaves the run state untouched; a start request
with a valid snapshot starts the worker thread with the running flag set and
reports no error. -/
theorem start_rejects_invalid_settings (st : ClickRunState) (kst : KeyRunState)
    (raw : RawClickSettings) (kraw : RawKeySettings) (isKnownKey : String → Bool)
    (now : ℚ) (hrun : st.isRunning = false) (hkrun : kst.keyIsRunning = false) :
    ((raw.delayMs ≤ 0 ∨ raw.jitterMs < 0 ∨ raw.jitterMs > raw.delayMs ∨
        raw.burst ≤ 0 ∨ raw.startDelayS < 0 ∨ (raw.limitEnabled ∧ raw.limitCount ≤ 0)) →
      ∃ e, collectSettings raw = .error e ∧ startClicking st raw now = (st, some e, false)) ∧
    (validRawClick raw →
      (startClicking st raw now).1.isRunning = true ∧
      (startClicking st raw now).2.2 = true ∧
      (startClicking st raw now).2.1 = none) ∧
    (∀ e, parseKeySequence isKnownKey kraw.sequence = .error e →
      startKeyPressing isKnownKey kst kraw now = (kst, some e, false)) ∧
    (∀ seq, parseKeySequence isKnownKey kraw.sequence = .ok seq → validRawKey kraw →
      (startKeyPressing isKnownKey kst kraw now).1.keyIsRunning = true ∧
      (startKeyPressing isKnownKey kst kraw now).2.2 = true ∧
      (startKeyPressing isKnownKey kst kraw now).2.1 = none) := by
  refine ⟨?_, ?_, ?_, ?_⟩
  · intro hbad
    obtain ⟨e, he⟩ := collectSettings_error_of_invalid raw hbad
    exact ⟨e, he, by simp [startClicking, hrun, he]⟩
  · intro hgood
    have hok := collectSettings_ok_of_valid raw hgood
    refine ⟨?_, ?_, ?_⟩ <;> simp [startClicking, hrun, hok]
  · intro e he
    have hkerr : collectKeySettings isKnownKey kraw = .error e := by
      unfold collectKeySettings
      rw [he]
    simp [startKeyPressing, hkrun, hkerr]
  · intro seq hseq hkv
    have hok := collectKeySettings_ok_of_valid isKnownKey kraw seq hseq hkv
    refine ⟨?_, ?_, ?_⟩ <;> simp [startKeyPressing, hkrun, hok]

/-- Idle click run state, as initialised in __init__. -/
def idleClickRunState : ClickRunState :=
  { isRunning := false, stopSet := false, startTimestamp := none,
    lastElapsedSeconds := 0, clicksRecorded := 0, runReason := "Idle",
    holdPressed := false }

/-- Idle key run state, as initialised in __init__. -/
def idleKeyRunState : KeyRunState :=
  { keyIsRunning := false, keyStopSet := false, keyStartTimestamp := none,
    keyLastElapsedSeconds := 0, keyCyclesRecorded := 0, keyRunReason := "Idle",
    keyHoldActive := false, activeKeySequence := none }

/-- Click-tab raw settings with a zero delay (invalid). -/
def zeroDelayRawClick : RawClickSettings :=
  { delayMs := 0, jitterMs := 0, burst := 1, startDelayS := 0, limitCount := 500,
    limitEnabled := false, button := "left", mode := "single" }

/-- Key-tab raw settings naming an unknown key token. -/
def unknownTokenRawKey : RawKeySettings :=
  { sequence := "blorp", delayMs := 150, jitterMs := 0, burst := 1, startDelayS := 0,
    limitCount := 500, limitEnabled := false, mode := "tap" }

theorem start_rejects_invalid_settings_witness :
    idleClickRunState.isRunning = false ∧ idleKeyRunState.keyIsRunning = false ∧
    (((zeroDelayRawClick.delayMs ≤ 0 ∨ zeroDelayRawClick.jitterMs < 0 ∨
        zeroDelayRawClick.jitterMs > zeroDelayRawClick.delayMs ∨
        zeroDelayRawClick.burst ≤ 0 ∨ zeroDelayRawClick.startDelayS < 0 ∨
        (zeroDelayRawClick.limitEnabled ∧ zeroDelayRawClick.limitCount ≤ 0)) →
      ∃ e, collectSettings zeroDelayRawClick = .error e ∧
        startClicking idleClickRunState zeroDelayRawClick 0 = (idleClickRunState, some e, false)) ∧
    (validRawClick zeroDelayRawClick →
      (startClicking idleClickRunState zeroDelayRawClick 0).1.isRunning = true ∧
      (startClicking idleClickRunState zeroDelayRawClick 0).2.2 = true ∧
      (startClicking idleClickRunState zeroDelayRawClick 0).2.1 = none) ∧
    (∀ e, parseKeySequence (fun s => s == "space") unknownTokenRawKey.sequence = .error e →
      startKeyPressing (fun s => s == "space") idleKeyRunState unknownTokenRawKey 0 =
        (idleKeyRunState, some e, false)) ∧
    (∀ seq, parseKeySequence (fun s => s == "space") unknownTokenRawKey.sequence = .ok seq →
      validRawKey unknownTokenRawKey →
      (startKeyPressing (fun s => s == "space") idleKeyRunState
        unknownTokenRawKey 0).1.keyIsRunning = true ∧
      (startKeyPressing (fun s => s == "space") idleKeyRunState
        unknownTokenRawKey 0).2.2 = true ∧
      (startKeyPressing (fun s => s == "space") idleKeyRunState
        unknownTokenRawKey 0).2.1 = none)) :=
  ⟨rfl, rfl, start_rejects_invalid_settings idleClickRunState idleKeyRunState
    zeroDelayRawClick unknownTokenRawKey (fun s => s == "space") 0 rfl rfl⟩

/-- C10: after validation only requires the entered delay to be positive, the
snapshot silently floors the base interval - at 0.005 s for the click worker
and 0.01 s for the key worker - so any entered delay below the floor yields a
captured base_interval equal to the floor rather than to the entered value. -/
theorem base_interval_silent_floor (raw : RawClickSettings) (kraw : RawKeySettings)
    (isKnownKey : String → Bool) (seq : List String)
    (hv : validRawClick raw) (hlow : raw.delayMs < 5)
    (hseq : parseKeySequence isKnownKey kraw.sequence = .ok seq)
    (hkv : validRawKey kraw) (hklow : kraw.delayMs < 10) :
    (∃ s, collectSettings raw = .ok s ∧
      s.base_interval = 5 / 1000 ∧ s.base_interval ≠ raw.delayMs / 1000) ∧
    (∃ s, collectKeySettings isKnownKey kraw = .ok s ∧
      s.base_interval = 1 / 100 ∧ s.base_interval ≠ kraw.delayMs / 1000) := by
  constructor
  · refine ⟨_, collectSettings_ok_of_valid raw hv, ?_, ?_⟩
    · simp only
      rw [max_eq_left]
      linarith
    · simp only
      rw [max_eq_left (by linarith)]
      intro hc
      have : raw.delayMs = 5 := by
        field_simp at hc
        linarith
      linarith
  · refine ⟨_, collectKeySettings_ok_of_valid isKnownKey kraw seq hseq hkv, ?_, ?_⟩
    · simp only
      rw [max_eq_left]
      linarith
    · simp only
      rw [max_eq_left (by linarith)]
      intro hc
      have : kraw.delayMs = 10 := by
        field_simp at hc
        linarith
      linarith

/-- Click-tab raw settings with a 1 ms delay (valid, below the 5 ms floor). -/
def lowDelayRawClick : RawClickSettings :=
  { delayMs := 1, jitterMs := 0, burst := 1, startDelayS := 0, limitCount := 500,
    limitEnabled := false, button := "left", mode := "single" }

/-- Key-tab raw settings with a 1 ms delay (valid, below the 10 ms floor). -/
def lowDelayRawKey : RawKeySettings :=
  { sequence := "space", delayMs := 1, jitterMs := 0, burst := 1, startDelayS := 0,
    limitCount := 500, limitEnabled := false, mode := "tap" }

theorem base_interval_silent_floor_witness :
    validRawClick lowDelayRawClick ∧ lowDelayRawClick.delayMs < 5 ∧
    parseKeySequence (fun s => s == "space") lowDelayRawKey.sequence = .ok ["space"] ∧
    validRawKey lowDelayRawKey ∧ lowDelayRawKey.delayMs < 10 ∧
    ((∃ s, collectSettings lowDelayRawClick = .ok s ∧
      s.base_interval = 5 / 1000 ∧ s.base_interval ≠ lowDelayRawClick.delayMs / 1000) ∧
    (∃ s, collectKeySettings (fun s => s == "space") lowDelayRawKey = .ok s ∧
      s.base_interval = 1 / 100 ∧ s.base_interval ≠ lowDelayRawKey.delayMs / 1000)) := by
  refine ⟨?_, by norm_num [lowDelayRawClick], rfl, ?_, by norm_num [lowDelayRawKey], ?_⟩
  · refine ⟨by norm_num [lowDelayRawClick], by norm_num [lowDelayRawClick],
      by norm_num [lowDelayRawClick], by norm_num [lowDelayRawClick],
      by norm_num [lowDelayRawClick], ?_, by simp [lowDelayRawClick, BUTTON_MAP], ?_⟩
    · intro h
      simp [lowDelayRawClick] at h
    · simp [lowDelayRawClick]
  · refine ⟨by norm_num [lowDelayRawKey], by norm_num [lowDelayRawKey],
      by norm_num [lowDelayRawKey], by norm_num [lowDelayRawKey],
      by norm_num [lowDelayRawKey], ?_, ?_⟩
    · intro h
      simp [lowDelayRawKey] at h
    · simp [lowDelayRawKey]
  · exact base_interval_silent_floor lowDelayRawClick lowDelayRawKey
      (fun s => s == "space") ["space"]
      ⟨by norm_num [lowDelayRawClick], by norm_num [lowDelayRawClick],
        by norm_num [lowDelayRawClick], by norm_num [lowDelayRawClick],
        by norm_num [lowDelayRawClick],
        (by intro h; simp [lowDelayRawClick] at h),
        by simp [lowDelayRawClick, BUTTON_MAP], by simp [lowDelayRawClick]⟩
      (by norm_num [lowDelayRawClick])
      rfl
      ⟨by norm_num [lowDelayRawKey], by norm_num [lowDelayRawKey],
        by norm_num [lowDelayRawKey], by norm_num [lowDelayRawKey],
        by norm_num [lowDelayRawKey],
        (by intro h; simp [lowDelayRawKey] at h),
        by simp [lowDelayRawKey]⟩
      (by norm_num [lowDelayRawKey])

/-- Observation of the single-shot stop event: stopTick is the index of the
first is_set / wait call that reads the event as set (none = never set during
the run); once set it stays set. -/
def stopObserved (stopTick : Option Nat) (t : Nat) : Bool :=
  match stopTick with
  | none => false
  | some k => decide (k ≤ t)

/-- Mouse controller calls issued by the click worker. A click carries the
count passed to mouse.Controller.click (2 in double mode, else 1); the button
is the one fixed in the settings snapshot. -/
inductive MouseAct where
  | press
  | release
  | click (count : ℤ)
deriving DecidableEq

/-- State threaded through the embedded click worker: the clicks_recorded and
hold_pressed fields, the run reason, the trace of controller calls, the
stop-event observation counter t, the controller-call counter a, the
random-draw counter j, the recorded cycle delays, and whether the loop has
exited (false once fuel runs out mid-run). -/
structure ClickWorkerState where
  clicksRecorded : ℤ
  holdPressed : Bool
  runReason : String
  trace : List MouseAct
  t : Nat
  a : Nat
  j : Nat
  delays : List ℚ
  finished : Bool
deriving DecidableEq

/-- The burst loop of _click_worker (for _ in range(burst_count)): check the
stop event, click (click count 2 in double mode), add the count to the
counter, and for bursts larger than one check the event again and sleep on it.
A controller call failing (failAt) raises: it performs nothing and the burst
reports an error. -/
def clickBurst (s : ClickSettings) (stopTick : Option Nat) (failAt : Nat → Bool) :
    Nat → ClickWorkerState → ClickWorkerState × Bool
  | 0, st => (st, false)
  | n + 1, st =>
    if stopObserved stopTick st.t then ({ st with t := st.t + 1 }, false)
    else
      let st1 := { st with t := st.t + 1 }
      if failAt st1.a then ({ st1 with a := st1.a + 1 }, true)
      else
        let clickCount : ℤ := if s.mode = "double" then 2 else 1
        let st2 := { st1 with
          a := st1.a + 1
          trace := st1.trace ++ [MouseAct.click clickCount]
          clicksRecorded := st1.clicksRecorded + clickCount }
        if 1 < s.burst_count then
          if stopObserved stopTick st2.t then
            clickBurst s stopTick failAt n { st2 with t := st2.t + 1 }
          else
            clickBurst s stopTick failAt n { st2 with t := st2.t + 2 }
        else
          clickBurst s stopTick failAt n st2

/-- The active while-loop of _click_worker: check the stop event, break with
"Limit reached" once the counter has reached an enabled limit, then either run
the hold branch (press once, then park on 0.05 s waits) or run one burst and
the jittered inter-cycle wait. An exception breaks out with reason "Error"
(the code stores "Error: {exc}"); jitterDraw supplies random.uniform. -/
def clickWorkerLoop (s : ClickSettings) (stopTick : Option Nat) (failAt : Nat → Bool)
    (jitterDraw : Nat → ℚ) : Nat → ClickWorkerState → ClickWorkerState
  | 0, st => { st with finished := false }
  | fuel + 1, st =>
    if stopObserved stopTick st.t then { st with t := st.t + 1, finished := true }
    else
      let st1 := { st with t := st.t + 1 }
      if s.limit_enabled = true ∧ st1.clicksRecorded ≥ s.limit_count then
        { st1 with runReason := "Limit reached", finished := true }
      else if s.mode = "hold" then
        if st1.holdPressed then
          if stopObserved stopTick st1.t then { st1 with t := st1.t + 1, finished := true }
          else clickWorkerLoop s stopTick failAt jitterDraw fuel { st1 with t := st1.t + 1 }
        else
          if failAt st1.a then
            { st1 with a := st1.a + 1, runReason := "Error", finished := true }
          else
            let st2 := { st1 with
              a := st1.a + 1
              trace := st1.trace ++ [MouseAct.press]
              holdPressed := true }
            if stopObserved stopTick st2.t then { st2 with t := st2.t + 1, finished := true }
            else clickWorkerLoop s stopTick failAt jitterDraw fuel { st2 with t := st2.t + 1 }
      else
        let r := clickBurst s stopTick failAt s.burst_count.toNat st1
        if r.2 then { r.1 with runReason := "Error", finished := true }
        else
          let nextDelay :=
            if 0 < s.jitter then max (5 / 1000) (s.base_interval + jitterDraw r.1.j)
            else s.base_interval
          let st2 := if 0 < s.jitter then { r.1 with j := r.1.j + 1 } else r.1
          let st3 := { st2 with delays := st2.delays ++ [nextDelay] }
          if stopObserved stopTick st3.t then { st3 with t := st3.t + 1, finished := true }
          else clickWorkerLoop s stopTick failAt jitterDraw fuel { st3 with t := st3.t + 1 }

/-- _click_worker after the start-delay phase, with its finally block: run the
active loop, then release a held button. The release call is always made (its
own exception is swallowed by the inner except-pass), so it is recorded
whenever the loop exited while holding. -/
def clickWorker (s : ClickSettings) (stopTick : Option Nat) (failAt : Nat → Bool)
    (jitterDraw : Nat → ℚ) (fuel : Nat) (st : ClickWorkerState) : ClickWorkerState :=
  let r := clickWorkerLoop s stopTick failAt jitterDraw fuel st
  if r.finished && r.holdPressed then
    { r with trace := r.trace ++ [MouseAct.release], holdPressed := false }
  else r

/-- Fresh click-worker state as set up by start_clicking. -/
def initialClickWorkerState : ClickWorkerState :=
  { clicksRecorded := 0, holdPressed := false, runReason := "Running", trace := [],
    t := 0, a := 0, j := 0, delays := [], finished := false }

/-- Keyboard controller calls issued by the key worker: one entry per
_press_sequence / _release_sequence call over the whole configured sequence. -/
inductive KeyAct where
  | pressSeq
  | releaseSeq
deriving DecidableEq

/-- State threaded through the embedded key worker, mirroring the
key_cycles_recorded and key_hold_active fields. -/
structure KeyWorkerState where
  cyclesRecorded : ℤ
  holdActive : Bool
  runReason : String
  trace : List KeyAct
  t : Nat
  a : Nat
  j : Nat
  delays : List ℚ
  finished : Bool
deriving DecidableEq

/-- _tap_sequence: repeats times, press the whole sequence then release it
(plain sleeps in between consume no stop observation); each sequence call is
fallible. -/
def tapSequence (failAt : Nat → Bool) : Nat → KeyWorkerState → KeyWorkerState × Bool
  | 0, st => (st, false)
  | n + 1, st =>
    if failAt st.a then ({ st with a := st.a + 1 }, true)
    else
      let st1 := { st with a := st.a + 1, trace := st.trace ++ [KeyAct.pressSeq] }
      if failAt st1.a then ({ st1 with a := st1.a + 1 }, true)
      else
        tapSequence failAt n
          { st1 with a := st1.a + 1, trace := st1.trace ++ [KeyAct.releaseSeq] }

/-- The burst loop of _key_worker (for _ in range(burst_count)): check the
stop event, tap the sequence (twice per repetition in double mode), increment
the cycle counter by one, and for bursts larger than one check the event again
and sleep on it. -/
def keyBurst (s : KeyPressSettings) (stopTick : Option Nat) (failAt : Nat → Bool) :
    Nat → KeyWorkerState → KeyWorkerState × Bool
  | 0, st => (st, false)
  | n + 1, st =>
    if stopObserved stopTick st.t then ({ st with t := st.t + 1 }, false)
    else
      let st1 := { st with t := st.t + 1 }
      let repeats : Nat := if s.mode = "double" then 2 else 1
      let r := tapSequence failAt repeats st1
      if r.2 then (r.1, true)
      else
        let st2 := { r.1 with cyclesRecorded := r.1.cyclesRecorded + 1 }
        if 1 < s.burst_count then
          if stopObserved stopTick st2.t then
            keyBurst s stopTick failAt n { st2 with t := st2.t + 1 }
          else
            keyBurst s stopTick failAt n { st2 with t := st2.t + 2 }
        else
          keyBurst s stopTick failAt n st2

/-- The active while-loop of _key_worker: check the stop event, break with
"Limit reached" once the counter has reached an enabled limit, then either run
the hold branch (press the sequence once, set the cycle counter to 1 if it is
still 0, then park on 0.05 s waits) or run one burst and the jittered
inter-cycle wait. -/
def keyWorkerLoop (s : KeyPressSettings) (stopTick : Option Nat) (failAt : Nat → Bool)
    (jitterDraw : Nat → ℚ) : Nat → KeyWorkerState → KeyWorkerState
  | 0, st => { st with finished := false }
  | fuel + 1, st =>
    if stopObserved stopTick st.t then { st with t := st.t + 1, finished := true }
    else
      let st1 := { st with t := st.t + 1 }
      if s.limit_enabled = true ∧ st1.cyclesRecorded ≥ s.limit_count then
        { st1 with runReason := "Limit reached", finished := true }
      else if s.mode = "hold" then
        if st1.holdActive then
          if stopObserved stopTick st1.t then { st1 with t := st1.t + 1, finished := true }
          else keyWorkerLoop s stopTick failAt jitterDraw fuel { st1 with t := st1.t + 1 }
        else
          if failAt st1.a then
            { st1 with a := st1.a + 1, runReason := "Error", finished := true }
          else
            let st2 := { st1 with
              a := st1.a + 1
              trace := st1.trace ++ [KeyAct.pressSeq]
              holdActive := true }
            let st3 :=
              if st2.cyclesRecorded = (0 : ℤ) then { st2 with cyclesRecorded := (1 : ℤ) }
              else st2
            if stopObserved stopTick st3.t then { st3 with t := st3.t + 1, finished := true }
            else keyWorkerLoop s stopTick failAt jitterDraw fuel { st3 with t := st3.t + 1 }
      else
        let r := keyBurst s stopTick failAt s.burst_count.toNat st1
        if r.2 then { r.1 with runReason := "Error", finished := true }
        else
          let nextDelay :=
            if 0 < s.jitter then max (1 / 100) (s.base_interval + jitterDraw r.1.j)
            else s.base_interval
          let st2 := if 0 < s.jitter then { r.1 with j := r.1.j + 1 } else r.1
          let st3 := { st2 with delays := st2.delays ++ [nextDelay] }
          if stopObserved stopTick st3.t then { st3 with t := st3.t + 1, finished := true }
          else keyWorkerLoop s stopTick failAt jitterDraw fuel { st3 with t := st3.t + 1 }

/-- _key_worker after the start-delay phase, with its finally block: run the
active loop, then release a held sequence. The release call is always made
(its own exception is swallowed by the inner except-pass). -/
def keyWorker (s : KeyPressSettings) (stopTick : Option Nat) (failAt : Nat → Bool)
    (jitterDraw : Nat → ℚ) (fuel : Nat) (st : KeyWorkerState) : KeyWorkerState :=
  let r := keyWorkerLoop s stopTick failAt jitterDraw fuel st
  if r.finished && r.holdActive then
    { r with trace := r.trace ++ [KeyAct.releaseSeq], holdActive := false }
  else r

/-- Fresh key-worker state as set up by start_key_pressing. -/
def initialKeyWorkerState : KeyWorkerState :=
  { cyclesRecorded := 0, holdActive := false, runReason := "Running", trace := [],
    t := 0, a := 0, j := 0, delays := [], finished := false }

theorem clickBurst_snd (s : ClickSettings) (n : Nat) (st : ClickWorkerState) :
    (clickBurst s none (fun _ => false) n st).2 = false := by
  induction n generalizing st with
  | zero => simp [clickBurst]
  | succ n ih =>
    by_cases hb : 1 < s.burst_count <;>
      simp [clickBurst, stopObserved, hb, ih]

theorem clickBurst_clicks (s : ClickSettings) (n : Nat) (st : ClickWorkerState) :
    (clickBurst s none (fun _ => false) n st).1.clicksRecorded =
      st.clicksRecorded + n * (if s.mode = "double" then 2 else 1) := by
  induction n generalizing st with
  | zero => simp [clickBurst]
  | succ n ih =>
    by_cases hb : 1 < s.burst_count <;>
      (simp [clickBurst, stopObserved, hb, ih];
        by_cases hm : s.mode = "double" <;> simp [hm] <;> ring)

theorem clickBurst_trace (s : ClickSettings) (n : Nat) (st : ClickWorkerState) :
    (clickBurst s none (fun _ => false) n st).1.trace =
      st.trace ++ List.replicate n (MouseAct.click (if s.mode = "double" then 2 else 1)) := by
  induction n generalizing st with
  | zero => simp [clickBurst]
  | succ n ih =>
    by_cases hb : 1 < s.burst_count <;>
      simp [clickBurst, stopObserved, hb, ih, List.replicate_succ]

theorem clickBurst_runReason (s : ClickSettings) (n : Nat) (st : ClickWorkerState) :
    (clickBurst s none (fun _ => false) n st).1.runReason = st.runReason := by
  induction n generalizing st with
  | zero => simp [clickBurst]
  | succ n ih =>
    by_cases hb : 1 < s.burst_count <;>
      simp [clickBurst, stopObserved, hb, ih]

theorem clickBurst_finished (s : ClickSettings) (n : Nat) (st : ClickWorkerState) :
    (clickBurst s none (fun _ => false) n st).1.finished = st.finished := by
  induction n generalizing st with
  | zero => simp [clickBurst]
  | succ n ih =>
    by_cases hb : 1 < s.burst_count <;>
      simp [clickBurst, stopObserved, hb, ih]

theorem clickBurst_holdPressed (s : ClickSettings) (n : Nat) (st : ClickWorkerState) :
    (clickBurst s none (fun _ => false) n st).1.holdPressed = st.holdPressed := by
  induction n generalizing st with
  | zero => simp [clickBurst]
  | succ n ih =>
    by_cases hb : 1 < s.burst_count <;>
      simp [clickBurst, stopObserved, hb, ih]

theorem tapSequence_snd (n : Nat) (st : KeyWorkerState) :
    (tapSequence (fun _ => false) n st).2 = false := by
  induction n generalizing st with
  | zero => simp [tapSequence]
  | succ n ih => simp [tapSequence, ih]

theorem tapSequence_cycles (n : Nat) (st : KeyWorkerState) :
    (tapSequence (fun _ => false) n st).1.cyclesRecorded = st.cyclesRecorded := by
  induction n generalizing st with
  | zero => simp [tapSequence]
  | succ n ih => simp [tapSequence, ih]

theorem tapSequence_press_count (n : Nat) (st : KeyWorkerState) :
    ((tapSequence (fun _ => false) n st).1.trace.count KeyAct.pressSeq) =
      st.trace.count KeyAct.pressSeq + n := by
  induction n generalizing st with
  | zero => simp [tapSequence]
  | succ n ih =>
    simp [tapSequence, ih, List.count_append]
    omega

theorem tapSequence_runReason (n : Nat) (st : KeyWorkerState) :
    (tapSequence (fun _ => false) n st).1.runReason = st.runReason := by
  induction n generalizing st with
  | zero => simp [tapSequence]
  | succ n ih => simp [tapSequence, ih]

theorem tapSequence_finished (n : Nat) (st : KeyWorkerState) :
    (tapSequence (fun _ => false) n st).1.finished = st.finished := by
  induction n generalizing st with
  | zero => simp [tapSequence]
  | succ n ih => simp [tapSequence, ih]

theorem tapSequence_holdActive (n : Nat) (st : KeyWorkerState) :
    (tapSequence (fun _ => false) n st).1.holdActive = st.holdActive := by
  induction n generalizing st with
  | zero => simp [tapSequence]
  | succ n ih => simp [tapSequence, ih]

theorem keyBurst_snd (s : KeyPressSettings) (n : Nat) (st : KeyWorkerState) :
    (keyBurst s none (fun _ => false) n st).2 = false := by
  induction n generalizing st with
  | zero => simp [keyBurst]
  | succ n ih =>
    by_cases hb : 1 < s.burst_count <;>
      simp [keyBurst, stopObserved, hb, ih, tapSequence_snd]

theorem keyBurst_cycles (s : KeyPressSettings) (n : Nat) (st : KeyWorkerState) :
    (keyBurst s none (fun _ => false) n st).1.cyclesRecorded =
      st.cyclesRecorded + n := by
  induction n generalizing st with
  | zero => simp [keyBurst]
  | succ n ih =>
    by_cases hb : 1 < s.burst_count <;>
      (simp [keyBurst, stopObserved, hb, ih, tapSequence_snd, tapSequence_cycles]; ring)

theorem keyBurst_press_count (s : KeyPressSettings) (n : Nat) (st : KeyWorkerState) :
    ((keyBurst s none (fun _ => false) n st).1.trace.count KeyAct.pressSeq) =
      st.trace.count KeyAct.pressSeq + n * (if s.mode = "double" then 2 else 1) := by
  induction n generalizing st with
  | zero => simp [keyBurst]
  | succ n ih =>
    by_cases hb : 1 < s.burst_count <;>
      (simp [keyBurst, stopObserved, hb, ih, tapSequence_snd, tapSequence_press_count];
        by_cases hm : s.mode = "double" <;> simp [hm] <;> ring)

theorem keyBurst_runReason (s : KeyPressSettings) (n : Nat) (st : KeyWorkerState) :
    (keyBurst s none (fun _ => false) n st).1.runReason = st.runReason := by
  induction n generalizing st with
  | zero => simp [keyBurst]
  | succ n ih =>
    by_cases hb : 1 < s.burst_count <;>
      simp [keyBurst, stopObserved, hb, ih, tapSequence_snd, tapSequence_runReason]

theorem keyBurst_finished (s : KeyPressSettings) (n : Nat) (st : KeyWorkerState) :
    (keyBurst s none (fun _ => false) n st).1.finished = st.finished := by
  induction n generalizing st with
  | zero => simp [keyBurst]
  | succ n ih =>
    by_cases hb : 1 < s.burst_count <;>
      simp [keyBurst, stopObserved, hb, ih, tapSequence_snd, tapSequence_finished]

theorem keyBurst_holdActive (s : KeyPressSettings) (n : Nat) (st : KeyWorkerState) :
    (keyBurst s none (fun _ => false) n st).1.holdActive = st.holdActive := by
  induction n generalizing st with
  | zero => simp [keyBurst]
  | succ n ih =>
    by_cases hb : 1 < s.burst_count <;>
      simp [keyBurst, stopObserved, hb, ih, tapSequence_snd, tapSequence_holdActive]

/-- Total atomic mouse clicks recorded in a trace: each controller click call
injects its click count. -/
def mouseAtomicClicks : List MouseAct → ℤ
  | [] => 0
  | MouseAct.click k :: rest => k + mouseAtomicClicks rest
  | MouseAct.press :: rest => mouseAtomicClicks rest
  | MouseAct.release :: rest => mouseAtomicClicks rest

theorem mouseAtomicClicks_append (l1 l2 : List MouseAct) :
    mouseAtomicClicks (l1 ++ l2) = mouseAtomicClicks l1 + mouseAtomicClicks l2 := by
  induction l1 with
  | nil => simp [mouseAtomicClicks]
  | cons hd tl ih =>
    cases hd <;> simp [mouseAtomicClicks, ih] <;> ring

theorem mouseAtomicClicks_replicate_click (n : Nat) (k : ℤ) :
    mouseAtomicClicks (List.replicate n (MouseAct.click k)) = n * k := by
  induction n with
  | zero => simp [mouseAtomicClicks]
  | succ n ih =>
    simp [List.replicate_succ, mouseAtomicClicks, ih]
    ring

/-- Key-macro settings with mode "double", burst 1: the counterexample run. -/
def doubleKeySettings : KeyPressSettings :=
  { sequence := ["space"], mode := "double", base_interval := 15 / 100, jitter := 0,
    burst_count := 1, start_delay := 0, limit_enabled := false, limit_count := 500 }

/-- C2 counterexample: in the key worker an uncancelled double-mode burst of
one repetition performs two atomic taps of the sequence but increments the
cycle counter by one, not two - refuting the claim that either worker's
counter increases by 2 per repetition in double mode. -/
theorem key_double_burst_counts_one_not_two :
    (keyBurst doubleKeySettings none (fun _ => false) 1
        initialKeyWorkerState).1.cyclesRecorded = 1 ∧
    ((keyBurst doubleKeySettings none (fun _ => false) 1
        initialKeyWorkerState).1.trace.count KeyAct.pressSeq) = 2 ∧
    ¬(keyBurst doubleKeySettings none (fun _ => false) 1
        initialKeyWorkerState).1.cyclesRecorded = 2 := by
  exact ⟨by decide, by decide, by decide⟩

/-- C2 amended: after an uncancelled burst of n repetitions, the click
worker's counter has increased by n times the atomic click count (2 per
repetition in double mode, 1 otherwise), exactly matching the atomic clicks
injected; the key worker's cycle counter has increased by exactly n - one per
repetition regardless of mode - even though double mode performs 2 atomic
sequence taps per repetition. -/
theorem burst_counter_increment (s : ClickSettings) (ks : KeyPressSettings) (n : Nat)
    (st : ClickWorkerState) (kst : KeyWorkerState) :
    (clickBurst s none (fun _ => false) n st).1.clicksRecorded =
      st.clicksRecorded + n * (if s.mode = "double" then 2 else 1) ∧
    mouseAtomicClicks (clickBurst s none (fun _ => false) n st).1.trace =
      mouseAtomicClicks st.trace + n * (if s.mode = "double" then 2 else 1) ∧
    (keyBurst ks none (fun _ => false) n kst).1.cyclesRecorded =
      kst.cyclesRecorded + n ∧
    ((keyBurst ks none (fun _ => false) n kst).1.trace.count KeyAct.pressSeq) =
      kst.trace.count KeyAct.pressSeq + n * (if ks.mode = "double" then 2 else 1) := by
  refine ⟨clickBurst_clicks s n st, ?_, keyBurst_cycles ks n kst,
    keyBurst_press_count ks n kst⟩
  rw [clickBurst_trace, mouseAtomicClicks_append, mouseAtomicClicks_replicate_click]

/-- Width of one click burst in counter units: burst_count repetitions of the
atomic click count. -/
def clickBurstWidth (s : ClickSettings) : ℤ :=
  (s.burst_count.toNat : ℤ) * (if s.mode = "double" then 2 else 1)

theorem clickBurstWidth_pos (s : ClickSettings) (h : 0 < s.burst_count) :
    0 < clickBurstWidth s := by
  unfold clickBurstWidth
  by_cases hm : s.mode = "double" <;> simp [hm] <;> omega

theorem clickBurst_clicks_width (s : ClickSettings) (st : ClickWorkerState) :
    (clickBurst s none (fun _ => false) s.burst_count.toNat st).1.clicksRecorded =
      st.clicksRecorded + clickBurstWidth s := by
  rw [clickBurst_clicks]
  rfl

/-- Width of one key burst in counter units: one per repetition. -/
def keyBurstWidth (s : KeyPressSettings) : ℤ := (s.burst_count.toNat : ℤ)

theorem keyBurstWidth_pos (s : KeyPressSettings) (h : 0 < s.burst_count) :
    0 < keyBurstWidth s := by
  unfold keyBurstWidth
  omega

theorem keyBurst_cycles_width (s : KeyPressSettings) (st : KeyWorkerState) :
    (keyBurst s none (fun _ => false) s.burst_count.toNat st).1.cyclesRecorded =
      st.cyclesRecorded + keyBurstWidth s := by
  rw [keyBurst_cycles]
  rfl

theorem clickWorkerLoop_limit_reached (s : ClickSettings) (jd : Nat → ℚ)
    (hmode : s.mode ≠ "hold") (hlim : s.limit_enabled = true) (hburst : 0 < s.burst_count) :
    ∀ fuel : Nat, ∀ st : ClickWorkerState, st.holdPressed = false →
      st.clicksRecorded < s.limit_count + clickBurstWidth s →
      (s.limit_count - st.clicksRecorded).toNat < fuel →
      (clickWorkerLoop s none (fun _ => false) jd fuel st).finished = true ∧
      (clickWorkerLoop s none (fun _ => false) jd fuel st).runReason = "Limit reached" ∧
      s.limit_count ≤ (clickWorkerLoop s none (fun _ => false) jd fuel st).clicksRecorded ∧
      (clickWorkerLoop s none (fun _ => false) jd fuel st).clicksRecorded <
        s.limit_count + clickBurstWidth s ∧
      (clickWorkerLoop s none (fun _ => false) jd fuel st).holdPressed = false := by
  have hw : 0 < clickBurstWidth s := clickBurstWidth_pos s hburst
  intro fuel
  induction fuel with
  | zero =>
    intro st _ _ hf
    exact absurd hf (by omega)
  | succ fuel ih =>
    intro st hhold hinv hf
    by_cases hge : s.limit_count ≤ st.clicksRecorded
    · simp [clickWorkerLoop, stopObserved, hlim, hge, hhold]
      exact hinv
    · have hlt : st.clicksRecorded < s.limit_count := lt_of_not_le hge
      by_cases hj : 0 < s.jitter <;>
        (simp only [clickWorkerLoop, stopObserved, hlim, hge, hmode, hj, clickBurst_snd,
          if_false, if_true, Bool.false_eq_true, and_false, ite_false, ite_true]
         apply ih <;>
           simp [clickBurst_holdPressed, clickBurst_clicks_width, hhold] <;> omega)

theorem keyWorkerLoop_limit_reached (s : KeyPressSettings) (jd : Nat → ℚ)
    (hmode : s.mode ≠ "hold") (hlim : s.limit_enabled = true) (hburst : 0 < s.burst_count) :
    ∀ fuel : Nat, ∀ st : KeyWorkerState, st.holdActive = false →
      st.cyclesRecorded < s.limit_count + keyBurstWidth s →
      (s.limit_count - st.cyclesRecorded).toNat < fuel →
      (keyWorkerLoop s none (fun _ => false) jd fuel st).finished = true ∧
      (keyWorkerLoop s none (fun _ => false) jd fuel st).runReason = "Limit reached" ∧
      s.limit_count ≤ (keyWorkerLoop s none (fun _ => false) jd fuel st).cyclesRecorded ∧
      (keyWorkerLoop s none (fun _ => false) jd fuel st).cyclesRecorded <
        s.limit_count + keyBurstWidth s ∧
      (keyWorkerLoop s none (fun _ => false) jd fuel st).holdActive = false := by
  have hw : 0 < keyBurstWidth s := keyBurstWidth_pos s hburst
  intro fuel
  induction fuel with
  | zero =>
    intro st _ _ hf
    exact absurd hf (by omega)
  | succ fuel ih =>
    intro st hhold hinv hf
    by_cases hge : s.limit_count ≤ st.cyclesRecorded
    · simp [keyWorkerLoop, stopObserved, hlim, hge, hhold]
      exact hinv
    · have hlt : st.cyclesRecorded < s.limit_count := lt_of_not_le hge
      by_cases hj : 0 < s.jitter <;>
        (simp only [keyWorkerLoop, stopObserved, hlim, hge, hmode, hj, keyBurst_snd,
          if_false, if_true, Bool.false_eq_true, and_false, ite_false, ite_true]
         apply ih <;>
           simp [keyBurst_holdActive, keyBurst_cycles_width, hhold] <;> omega)

/-- C4: with the limit enabled (and a positive limit, positive burst count,
non-hold mode, no cancellation, no injection failure, enough fuel) both
workers run until the top-of-cycle limit check trips, exit with reason "Limit
reached", and finish with a counter at least the limit and overshooting it by
less than the width of one burst; with burst_count 1 and mode "single" the
click worker stops after exactly limit_count action increments. -/
theorem limit_reached_stops (s : ClickSettings) (ks : KeyPressSettings)
    (jd kjd : Nat → ℚ) (fuel kfuel : Nat)
    (hmode : s.mode ≠ "hold") (hlim : s.limit_enabled = true) (hburst : 0 < s.burst_count)
    (hlimpos : 0 < s.limit_count) (hfuel : s.limit_count.toNat < fuel)
    (hkmode : ks.mode ≠ "hold") (hklim : ks.limit_enabled = true)
    (hkburst : 0 < ks.burst_count) (hklimpos : 0 < ks.limit_count)
    (hkfuel : ks.limit_count.toNat < kfuel) :
    (clickWorker s none (fun _ => false) jd fuel initialClickWorkerState).finished = true ∧
    (clickWorker s none (fun _ => false) jd fuel initialClickWorkerState).runReason =
      "Limit reached" ∧
    s.limit_count ≤
      (clickWorker s none (fun _ => false) jd fuel initialClickWorkerState).clicksRecorded ∧
    (clickWorker s none (fun _ => false) jd fuel initialClickWorkerState).clicksRecorded <
      s.limit_count + clickBurstWidth s ∧
    (s.burst_count = 1 → s.mode = "single" →
      (clickWorker s none (fun _ => false) jd fuel initialClickWorkerState).clicksRecorded =
        s.limit_count) ∧
    (keyWorker ks none (fun _ => false) kjd kfuel initialKeyWorkerState).finished = true ∧
    (keyWorker ks none (fun _ => false) kjd kfuel initialKeyWorkerState).runReason =
      "Limit reached" ∧
    ks.limit_count ≤
      (keyWorker ks none (fun _ => false) kjd kfuel initialKeyWorkerState).cyclesRecorded ∧
    (keyWorker ks none (fun _ => false) kjd kfuel initialKeyWorkerState).cyclesRecorded <
      ks.limit_count + keyBurstWidth ks := by
  have hwpos := clickBurstWidth_pos s hburst
  have hkwpos := keyBurstWidth_pos ks hkburst
  obtain ⟨f1, f2, f3, f4, f5⟩ :=
    clickWorkerLoop_limit_reached s jd hmode hlim hburst fuel initialClickWorkerState
      rfl (by simp [initialClickWorkerState]; omega) (by simp [initialClickWorkerState]; omega)
  obtain ⟨g1, g2, g3, g4, g5⟩ :=
    keyWorkerLoop_limit_reached ks kjd hkmode hklim hkburst kfuel initialKeyWorkerState
      rfl (by simp [initialKeyWorkerState]; omega) (by simp [initialKeyWorkerState]; omega)
  have hid : clickWorker s none (fun _ => false) jd fuel initialClickWorkerState =
      clickWorkerLoop s none (fun _ => false) jd fuel initialClickWorkerState := by
    unfold clickWorker
    simp [f1, f5]
  have hkid : keyWorker ks none (fun _ => false) kjd kfuel initialKeyWorkerState =
      keyWorkerLoop ks none (fun _ => false) kjd kfuel initialKeyWorkerState := by
    unfold keyWorker
    simp [g1, g5]
  rw [hid, hkid]
  refine ⟨f1, f2, f3, f4, ?_, g1, g2, g3, g4⟩
  intro hb1 hm1
  have hwidth : clickBurstWidth s = 1 := by
    simp [clickBurstWidth, hb1, hm1]
  omega

theorem clickWorkerLoop_hold_park (s : ClickSettings) (stopTick : Option Nat)
    (failAt : Nat → Bool) (jd : Nat → ℚ) (hmode : s.mode = "hold") :
    ∀ fuel : Nat, ∀ st : ClickWorkerState, st.holdPressed = true →
      (clickWorkerLoop s stopTick failAt jd fuel st).trace = st.trace ∧
      (clickWorkerLoop s stopTick failAt jd fuel st).holdPressed = true ∧
      (clickWorkerLoop s stopTick failAt jd fuel st).clicksRecorded = st.clicksRecorded := by
  intro fuel
  induction fuel with
  | zero =>
    intro st hhold
    simp [clickWorkerLoop, hhold]
  | succ fuel ih =>
    intro st hhold
    rcases Bool.eq_false_or_eq_true (stopObserved stopTick st.t) with hs | hs
    · simp [clickWorkerLoop, hs, hhold]
    · by_cases hl : s.limit_enabled = true ∧ st.clicksRecorded ≥ s.limit_count
      · simp [clickWorkerLoop, hs, hl, hhold]
      · rcases Bool.eq_false_or_eq_true (stopObserved stopTick (st.t + 1)) with hs1 | hs1
        · simp [clickWorkerLoop, hs, hl, hmode, hhold, hs1]
        · simp only [clickWorkerLoop, hs, hl, hmode, hhold, hs1, Bool.false_eq_true,
            if_false, if_true, ite_true, ite_false]
          exact ih _ rfl

theorem keyWorkerLoop_hold_park (s : KeyPressSettings) (stopTick : Option Nat)
    (failAt : Nat → Bool) (jd : Nat → ℚ) (hmode : s.mode = "hold") :
    ∀ fuel : Nat, ∀ st : KeyWorkerState, st.holdActive = true →
      (keyWorkerLoop s stopTick failAt jd fuel st).trace = st.trace ∧
      (keyWorkerLoop s stopTick failAt jd fuel st).holdActive = true ∧
      (keyWorkerLoop s stopTick failAt jd fuel st).cyclesRecorded = st.cyclesRecorded := by
  intro fuel
  induction fuel with
  | zero =>
    intro st hhold
    simp [keyWorkerLoop, hhold]
  | succ fuel ih =>
    intro st hhold
    rcases Bool.eq_false_or_eq_true (stopObserved stopTick st.t) with hs | hs
    · simp [keyWorkerLoop, hs, hhold]
    · by_cases hl : s.limit_enabled = true ∧ st.cyclesRecorded ≥ s.limit_count
      · simp [keyWorkerLoop, hs, hl, hhold]
      · rcases Bool.eq_false_or_eq_true (stopObserved stopTick (st.t + 1)) with hs1 | hs1
        · simp [keyWorkerLoop, hs, hl, hmode, hhold, hs1]
        · simp only [keyWorkerLoop, hs, hl, hmode, hhold, hs1, Bool.false_eq_true,
            if_false, if_true, ite_true, ite_false]
          exact ih _ rfl

theorem clickWorkerLoop_stopped_before (s : ClickSettings) (stopTick : Option Nat)
    (failAt : Nat → Bool) (jd : Nat → ℚ) (fuel : Nat)
    (hs0 : stopObserved stopTick 0 = true) :
    clickWorkerLoop s stopTick failAt jd (fuel + 1) initialClickWorkerState =
      { clicksRecorded := 0, holdPressed := false, runReason := "Running", trace := [],
        t := 1, a := 0, j := 0, delays := [], finished := true } := by
  simp [clickWorkerLoop, initialClickWorkerState, hs0]

theorem clickWorkerLoop_hold_press_fails (s : ClickSettings) (stopTick : Option Nat)
    (failAt : Nat → Bool) (jd : Nat → ℚ) (fuel : Nat)
    (hmode : s.mode = "hold") (hlim : s.limit_enabled = true → 0 < s.limit_count)
    (hs0 : stopObserved stopTick 0 = false) (hf0 : failAt 0 = true) :
    clickWorkerLoop s stopTick failAt jd (fuel + 1) initialClickWorkerState =
      { clicksRecorded := 0, holdPressed := false, runReason := "Error", trace := [],
        t := 1, a := 1, j := 0, delays := [], finished := true } := by
  have hlc : ¬(s.limit_enabled = true ∧ s.limit_count ≤ (0 : ℤ)) :=
    fun hc => absurd (hlim hc.1) (by omega)
  simp [clickWorkerLoop, initialClickWorkerState, hs0, hlc, hmode, hf0]

theorem clickWorkerLoop_hold_entered (s : ClickSettings) (stopTick : Option Nat)
    (failAt : Nat → Bool) (jd : Nat → ℚ) (fuel : Nat)
    (hmode : s.mode = "hold") (hlim : s.limit_enabled = true → 0 < s.limit_count)
    (hs0 : stopObserved stopTick 0 = false) (hf0 : failAt 0 = false) :
    (clickWorkerLoop s stopTick failAt jd (fuel + 1) initialClickWorkerState).trace =
      [MouseAct.press] ∧
    (clickWorkerLoop s stopTick failAt jd (fuel + 1) initialClickWorkerState).holdPressed =
      true ∧
    (clickWorkerLoop s stopTick failAt jd (fuel + 1) initialClickWorkerState).clicksRecorded =
      0 := by
  have hlc : ¬(s.limit_enabled = true ∧ s.limit_count ≤ (0 : ℤ)) :=
    fun hc => absurd (hlim hc.1) (by omega)
  rcases Bool.eq_false_or_eq_true (stopObserved stopTick 1) with hs1 | hs1
  · simp [clickWorkerLoop, initialClickWorkerState, hs0, hlc, hmode, hf0, hs1]
  · have hpark := clickWorkerLoop_hold_park s stopTick failAt jd hmode fuel
      { clicksRecorded := 0, holdPressed := true, runReason := "Running",
        trace := [MouseAct.press], t := 2, a := 1, j := 0, delays := [],
        finished := false } rfl
    simp only [clickWorkerLoop, initialClickWorkerState, hs0, hlc, hmode, hf0, hs1,
      Bool.false_eq_true, if_false, if_true, ite_true, ite_false]
    exact ⟨hpark.1, hpark.2.1, hpark.2.2⟩

theorem keyWorkerLoop_stopped_before (s : KeyPressSettings) (stopTick : Option Nat)
    (failAt : Nat → Bool) (jd : Nat → ℚ) (fuel : Nat)
    (hs0 : stopObserved stopTick 0 = true) :
    keyWorkerLoop s stopTick failAt jd (fuel + 1) initialKeyWorkerState =
      { cyclesRecorded := 0, holdActive := false, runReason := "Running", trace := [],
        t := 1, a := 0, j := 0, delays := [], finished := true } := by
  simp [keyWorkerLoop, initialKeyWorkerState, hs0]

theorem keyWorkerLoop_hold_press_fails (s : KeyPressSettings) (stopTick : Option Nat)
    (failAt : Nat → Bool) (jd : Nat → ℚ) (fuel : Nat)
    (hmode : s.mode = "hold") (hlim : s.limit_enabled = true → 0 < s.limit_count)
    (hs0 : stopObserved stopTick 0 = false) (hf0 : failAt 0 = true) :
    keyWorkerLoop s stopTick failAt jd (fuel + 1) initialKeyWorkerState =
      { cyclesRecorded := 0, holdActive := false, runReason := "Error", trace := [],
        t := 1, a := 1, j := 0, delays := [], finished := true } := by
  have hlc : ¬(s.limit_enabled = true ∧ s.limit_count ≤ (0 : ℤ)) :=
    fun hc => absurd (hlim hc.1) (by omega)
  simp [keyWorkerLoop, initialKeyWorkerState, hs0, hlc, hmode, hf0]

theorem keyWorkerLoop_hold_entered (s : KeyPressSettings) (stopTick : Option Nat)
    (failAt : Nat → Bool) (jd : Nat → ℚ) (fuel : Nat)
    (hmode : s.mode = "hold") (hlim : s.limit_enabled = true → 0 < s.limit_count)
    (hs0 : stopObserved stopTick 0 = false) (hf0 : failAt 0 = false) :
    (keyWorkerLoop s stopTick failAt jd (fuel + 1) initialKeyWorkerState).trace =
      [KeyAct.pressSeq] ∧
    (keyWorkerLoop s stopTick failAt jd (fuel + 1) initialKeyWorkerState).holdActive =
      true ∧
    (keyWorkerLoop s stopTick failAt jd (fuel + 1) initialKeyWorkerState).cyclesRecorded =
      1 := by
  have hlc : ¬(s.limit_enabled = true ∧ s.limit_count ≤ (0 : ℤ)) :=
    fun hc => absurd (hlim hc.1) (by omega)
  rcases Bool.eq_false_or_eq_true (stopObserved stopTick 1) with hs1 | hs1
  · simp [keyWorkerLoop, initialKeyWorkerState, hs0, hlc, hmode, hf0, hs1]
  · have hpark := keyWorkerLoop_hold_park s stopTick failAt jd hmode fuel
      { cyclesRecorded := 1, holdActive := true, runReason := "Running",
        trace := [KeyAct.pressSeq], t := 2, a := 1, j := 0, delays := [],
        finished := false } rfl
    simp only [keyWorkerLoop, initialKeyWorkerState, hs0, hlc, hmode, hf0, hs1,
      Bool.false_eq_true, if_false, if_true, ite_true, ite_false]
    exact ⟨hpark.1, hpark.2.1, hpark.2.2⟩

/-- C3: in a hold-mode run that terminates, each worker issues at most one
press, presses and releases balance exactly (so no run leaves the button or
sequence held: the hold flag is false on exit on every path, including the
path where the press call itself raises), and in a run that actually enters
the hold (not cancelled before the loop, press call succeeds) the trace is
exactly one press followed, at exit, by exactly one release. -/
theorem hold_mode_press_release_balanced (s : ClickSettings) (ks : KeyPressSettings)
    (stopTick kstopTick : Option Nat) (failAt kfailAt : Nat → Bool) (jd kjd : Nat → ℚ)
    (fuel kfuel : Nat)
    (hmode : s.mode = "hold") (hkmode : ks.mode = "hold")
    (hlim : s.limit_enabled = true → 0 < s.limit_count)
    (hklim : ks.limit_enabled = true → 0 < ks.limit_count)
    (hfin : (clickWorkerLoop s stopTick failAt jd fuel initialClickWorkerState).finished = true)
    (hkfin : (keyWorkerLoop ks kstopTick kfailAt kjd kfuel initialKeyWorkerState).finished =
      true) :
    ((clickWorker s stopTick failAt jd fuel initialClickWorkerState).trace.count
        MouseAct.press ≤ 1) ∧
    ((clickWorker s stopTick failAt jd fuel initialClickWorkerState).trace.count
        MouseAct.press =
      (clickWorker s stopTick failAt jd fuel initialClickWorkerState).trace.count
        MouseAct.release) ∧
    (clickWorker s stopTick failAt jd fuel initialClickWorkerState).holdPressed = false ∧
    (stopObserved stopTick 0 = false → failAt 0 = false →
      (clickWorker s stopTick failAt jd fuel initialClickWorkerState).trace =
        [MouseAct.press, MouseAct.release]) ∧
    ((keyWorker ks kstopTick kfailAt kjd kfuel initialKeyWorkerState).trace.count
        KeyAct.pressSeq ≤ 1) ∧
    ((keyWorker ks kstopTick kfailAt kjd kfuel initialKeyWorkerState).trace.count
        KeyAct.pressSeq =
      (keyWorker ks kstopTick kfailAt kjd kfuel initialKeyWorkerState).trace.count
        KeyAct.releaseSeq) ∧
    (keyWorker ks kstopTick kfailAt kjd kfuel initialKeyWorkerState).holdActive = false ∧
    (stopObserved kstopTick 0 = false → kfailAt 0 = false →
      (keyWorker ks kstopTick kfailAt kjd kfuel initialKeyWorkerState).trace =
        [KeyAct.pressSeq, KeyAct.releaseSeq]) := by
  cases fuel with
  | zero => simp [clickWorkerLoop, initialClickWorkerState] at hfin
  | succ fuel =>
    cases kfuel with
    | zero => simp [keyWorkerLoop, initialKeyWorkerState] at hkfin
    | succ kfuel =>
      have hclick :
          (clickWorker s stopTick failAt jd (fuel + 1) initialClickWorkerState).holdPressed =
            false ∧
          ((clickWorker s stopTick failAt jd (fuel + 1) initialClickWorkerState).trace =
              [MouseAct.press, MouseAct.release] ∨
            (clickWorker s stopTick failAt jd (fuel + 1) initialClickWorkerState).trace = []) ∧
          (stopObserved stopTick 0 = false → failAt 0 = false →
            (clickWorker s stopTick failAt jd (fuel + 1) initialClickWorkerState).trace =
              [MouseAct.press, MouseAct.release]) := by
        rcases Bool.eq_false_or_eq_true (stopObserved stopTick 0) with hs0 | hs0
        · have hEq := clickWorkerLoop_stopped_before s stopTick failAt jd fuel hs0
          refine ⟨by simp [clickWorker, hEq], Or.inr (by simp [clickWorker, hEq]), ?_⟩
          intro h _
          rw [h] at hs0
          simp at hs0
        · rcases Bool.eq_false_or_eq_true (failAt 0) with hf0 | hf0
          · have hEq := clickWorkerLoop_hold_press_fails s stopTick failAt jd fuel
              hmode hlim hs0 hf0
            refine ⟨by simp [clickWorker, hEq], Or.inr (by simp [clickWorker, hEq]), ?_⟩
            intro _ h
            rw [h] at hf0
            simp at hf0
          · have hEq := clickWorkerLoop_hold_entered s stopTick failAt jd fuel
              hmode hlim hs0 hf0
            have htr : (clickWorker s stopTick failAt jd (fuel + 1)
                initialClickWorkerState).trace = [MouseAct.press, MouseAct.release] := by
              simp [clickWorker, hfin, hEq.1, hEq.2.1]
            refine ⟨by simp [clickWorker, hfin, hEq.2.1], Or.inl htr, fun _ _ => htr⟩
      have hkey :
          (keyWorker ks kstopTick kfailAt kjd (kfuel + 1) initialKeyWorkerState).holdActive =
            false ∧
          ((keyWorker ks kstopTick kfailAt kjd (kfuel + 1) initialKeyWorkerState).trace =
              [KeyAct.pressSeq, KeyAct.releaseSeq] ∨
            (keyWorker ks kstopTick kfailAt kjd (kfuel + 1) initialKeyWorkerState).trace =
              []) ∧
          (stopObserved kstopTick 0 = false → kfailAt 0 = false →
            (keyWorker ks kstopTick kfailAt kjd (kfuel + 1) initialKeyWorkerState).trace =
              [KeyAct.pressSeq, KeyAct.releaseSeq]) := by
        rcases Bool.eq_false_or_eq_true (stopObserved kstopTick 0) with hs0 | hs0
        · have hEq := keyWorkerLoop_stopped_before ks kstopTick kfailAt kjd kfuel hs0
          refine ⟨by simp [keyWorker, hEq], Or.inr (by simp [keyWorker, hEq]), ?_⟩
          intro h _
          rw [h] at hs0
          simp at hs0
        · rcases Bool.eq_false_or_eq_true (kfailAt 0) with hf0 | hf0
          · have hEq := keyWorkerLoop_hold_press_fails ks kstopTick kfailAt kjd kfuel
              hkmode hklim hs0 hf0
            refine ⟨by simp [keyWorker, hEq], Or.inr (by simp [keyWorker, hEq]), ?_⟩
            intro _ h
            rw [h] at hf0
            simp at hf0
          · have hEq := keyWorkerLoop_hold_entered ks kstopTick kfailAt kjd kfuel
              hkmode hklim hs0 hf0
            have htr : (keyWorker ks kstopTick kfailAt kjd (kfuel + 1)
                initialKeyWorkerState).trace = [KeyAct.pressSeq, KeyAct.releaseSeq] := by
              simp [keyWorker, hkfin, hEq.1, hEq.2.1]
            refine ⟨by simp [keyWorker, hkfin, hEq.2.1], Or.inl htr, fun _ _ => htr⟩
      obtain ⟨hh, htr, hcl⟩ := hclick
      obtain ⟨hkh, hktr, hkcl⟩ := hkey
      refine ⟨?_, ?_, hh, hcl, ?_, ?_, hkh, hkcl⟩
      · rcases htr with h | h <;> rw [h] <;> decide
      · rcases htr with h | h <;> rw [h] <;> decide
      · rcases hktr with h | h <;> rw [h] <;> decide
      · rcases hktr with h | h <;> rw [h] <;> decide

theorem clickWorker_clicks_eq_loop (s : ClickSettings) (stopTick : Option Nat)
    (failAt : Nat → Bool) (jd : Nat → ℚ) (fuel : Nat) (st : ClickWorkerState) :
    (clickWorker s stopTick failAt jd fuel st).clicksRecorded =
      (clickWorkerLoop s stopTick failAt jd fuel st).clicksRecorded := by
  simp only [clickWorker]
  split <;> rfl

theorem keyWorker_cycles_eq_loop (s : KeyPressSettings) (stopTick : Option Nat)
    (failAt : Nat → Bool) (jd : Nat → ℚ) (fuel : Nat) (st : KeyWorkerState) :
    (keyWorker s stopTick failAt jd fuel st).cyclesRecorded =
      (keyWorkerLoop s stopTick failAt jd fuel st).cyclesRecorded := by
  simp only [keyWorker]
  split <;> rfl

/-- Hold-mode click settings used as concrete witness input. -/
def holdClickSettings : ClickSettings :=
  { button := "left", mode := "hold", base_interval := 1 / 10, jitter := 0,
    burst_count := 1, start_delay := 0, limit_enabled := false, limit_count := 500 }

/-- Hold-mode key settings used as concrete witness input. -/
def holdKeySettings : KeyPressSettings :=
  { sequence := ["space"], mode := "hold", base_interval := 15 / 100, jitter := 0,
    burst_count := 1, start_delay := 0, limit_enabled := false, limit_count := 500 }

theorem hold_mode_press_release_balanced_witness :
    (clickWorkerLoop holdClickSettings (some 3) (fun _ => false) (fun _ => 0) 10
        initialClickWorkerState).finished = true ∧
    (keyWorkerLoop holdKeySettings (some 3) (fun _ => false) (fun _ => 0) 10
        initialKeyWorkerState).finished = true ∧
    stopObserved (some 3) 0 = false ∧
    (clickWorker holdClickSettings (some 3) (fun _ => false) (fun _ => 0) 10
        initialClickWorkerState).trace = [MouseAct.press, MouseAct.release] ∧
    (keyWorker holdKeySettings (some 3) (fun _ => false) (fun _ => 0) 10
        initialKeyWorkerState).trace = [KeyAct.pressSeq, KeyAct.releaseSeq] ∧
    (clickWorker holdClickSettings (some 3) (fun _ => false) (fun _ => 0) 10
        initialClickWorkerState).holdPressed = false ∧
    (keyWorker holdKeySettings (some 3) (fun _ => false) (fun _ => 0) 10
        initialKeyWorkerState).holdActive = false := by
  have h := hold_mode_press_release_balanced holdClickSettings holdKeySettings
    (some 3) (some 3) (fun _ => false) (fun _ => false) (fun _ => 0) (fun _ => 0) 10 10
    rfl rfl (by decide) (by decide) (by decide) (by decide)
  exact ⟨by decide, by decide, by decide, h.2.2.2.1 (by decide) rfl,
    h.2.2.2.2.2.2.2 (by decide) rfl, h.2.2.1, h.2.2.2.2.2.2.1⟩

/-- C9: in hold mode the two workers account differently: once the key worker
enters the hold its cycle counter is set to 1 at the first press and stays 1
for the rest of the run, while the click worker's click counter stays 0 for
the whole hold run. -/
theorem hold_mode_counter_asymmetry (s : ClickSettings) (ks : KeyPressSettings)
    (stopTick kstopTick : Option Nat) (failAt kfailAt : Nat → Bool) (jd kjd : Nat → ℚ)
    (fuel kfuel : Nat)
    (hmode : s.mode = "hold") (hkmode : ks.mode = "hold")
    (hlim : s.limit_enabled = true → 0 < s.limit_count)
    (hklim : ks.limit_enabled = true → 0 < ks.limit_count)
    (hs0 : stopObserved stopTick 0 = false) (hf0 : failAt 0 = false)
    (hks0 : stopObserved kstopTick 0 = false) (hkf0 : kfailAt 0 = false)
    (hkfuel : 0 < kfuel) :
    (clickWorker s stopTick failAt jd fuel initialClickWorkerState).clicksRecorded = 0 ∧
    (keyWorker ks kstopTick kfailAt kjd kfuel initialKeyWorkerState).cyclesRecorded = 1 := by
  constructor
  · rw [clickWorker_clicks_eq_loop]
    cases fuel with
    | zero => simp [clickWorkerLoop, initialClickWorkerState]
    | succ fuel =>
      exact (clickWorkerLoop_hold_entered s stopTick failAt jd fuel hmode hlim hs0 hf0).2.2
  · rw [keyWorker_cycles_eq_loop]
    cases kfuel with
    | zero => exact absurd hkfuel (by omega)
    | succ kfuel =>
      exact (keyWorkerLoop_hold_entered ks kstopTick kfailAt kjd kfuel
        hkmode hklim hks0 hkf0).2.2

theorem hold_mode_counter_asymmetry_witness :
    holdClickSettings.mode = "hold" ∧ holdKeySettings.mode = "hold" ∧
    stopObserved (some 3) 0 = false ∧ (0 : Nat) < 10 ∧
    (clickWorker holdClickSettings (some 3) (fun _ => false) (fun _ => 0) 10
        initialClickWorkerState).clicksRecorded = 0 ∧
    (keyWorker holdKeySettings (some 3) (fun _ => false) (fun _ => 0) 10
        initialKeyWorkerState).cyclesRecorded = 1 := by
  have h := hold_mode_counter_asymmetry holdClickSettings holdKeySettings
    (some 3) (some 3) (fun _ => false) (fun _ => false) (fun _ => 0) (fun _ => 0) 10 10
    rfl rfl (by decide) (by decide) (by decide) rfl (by decide) rfl (by decide)
  exact ⟨rfl, rfl, by decide, by decide, h.1, h.2⟩

/-- Click settings with a 500-click limit, burst 1, single mode. -/
def limit500ClickSettings : ClickSettings :=
  { button := "left", mode := "single", base_interval := 1 / 10, jitter := 0,
    burst_count := 1, start_delay := 0, limit_enabled := true, limit_count := 500 }

/-- Key settings with a 500-cycle limit, burst 1, tap mode. -/
def limit500KeySettings : KeyPressSettings :=
  { sequence := ["space"], mode := "tap", base_interval := 15 / 100, jitter := 0,
    burst_count := 1, start_delay := 0, limit_enabled := true, limit_count := 500 }

theorem limit_reached_stops_witness :
    limit500ClickSettings.mode ≠ "hold" ∧ limit500ClickSettings.limit_enabled = true ∧
    0 < limit500ClickSettings.burst_count ∧ 0 < limit500ClickSettings.limit_count ∧
    limit500ClickSettings.limit_count.toNat < 501 ∧
    limit500KeySettings.mode ≠ "hold" ∧ limit500KeySettings.limit_enabled = true ∧
    0 < limit500KeySettings.burst_count ∧ 0 < limit500KeySettings.limit_count ∧
    limit500KeySettings.limit_count.toNat < 501 ∧
    (clickWorker limit500ClickSettings none (fun _ => false) (fun _ => 0) 501
        initialClickWorkerState).runReason = "Limit reached" ∧
    (clickWorker limit500ClickSettings none (fun _ => false) (fun _ => 0) 501
        initialClickWorkerState).clicksRecorded = 500 ∧
    (keyWorker limit500KeySettings none (fun _ => false) (fun _ => 0) 501
        initialKeyWorkerState).runReason = "Limit reached" := by
  have h := limit_reached_stops limit500ClickSettings limit500KeySettings
    (fun _ => 0) (fun _ => 0) 501 501
    (by decide) rfl (by decide) (by decide) (by decide)
    (by decide) rfl (by decide) (by decide) (by decide)
  exact ⟨by decide, rfl, by decide, by decide, by decide,
    by decide, rfl, by decide, by decide, by decide,
    h.2.1, h.2.2.2.2.1 rfl rfl, h.2.2.2.2.2.2.1⟩

/-- Inner event pass of _macro_play_worker: per event, check the stop event
(break), for a positive recorded delay wait on the stop event (a cancellation
during this wait breaks before the event is applied), then apply the event
(injection failures are swallowed inside _apply_macro_event). Returns the
applied events in order, the next observation tick, and whether the pass
broke on cancellation. -/
def playEvents (stopTick : Option Nat) :
    List MacroEvent → List MacroEvent → Nat → List MacroEvent × Nat × Bool
  | [], applied, t => (applied, t, false)
  | e :: rest, applied, t =>
    if stopObserved stopTick t then (applied, t + 1, true)
    else if 0 < e.delay then
      if stopObserved stopTick (t + 1) then (applied, t + 2, true)
      else playEvents stopTick rest (applied ++ [e]) (t + 2)
    else playEvents stopTick rest (applied ++ [e]) (t + 1)

/-- Outer loop of _macro_play_worker (for loop_index in range(loops), with
Python's for-else): check the stop event at the top of each loop; a broken
inner pass breaks out of all remaining loops. -/
def playLoops (stopTick : Option Nat) (events : List MacroEvent) :
    Nat → List MacroEvent → Nat → List MacroEvent × Nat × Bool
  | 0, applied, t => (applied, t, false)
  | n + 1, applied, t =>
    if stopObserved stopTick t then (applied, t + 1, true)
    else
      let r := playEvents stopTick events applied (t + 1)
      if r.2.2 then (r.1, r.2.1, true)
      else playLoops stopTick events n r.1 r.2.1

/-- _macro_play_worker after the start-delay phase: run the loops; only if no
break occurred (the outer for-else) and the run reason still reads "Playing"
is it set to "Completed". Returns (applied events, cancelled, final reason);
reasonIn is the macro_run_reason read at the end of the loops. -/
def macroPlayWorker (stopTick : Option Nat) (events : List MacroEvent) (loops : Nat)
    (reasonIn : String) : List MacroEvent × Bool × String :=
  let r := playLoops stopTick events loops [] 0
  if r.2.2 then (r.1, true, reasonIn)
  else (r.1, false, if reasonIn = "Playing" then "Completed" else reasonIn)

theorem playEvents_spec (stopTick : Option Nat) (evs : List MacroEvent) :
    ∀ applied : List MacroEvent, ∀ t : Nat,
      ∃ pre, pre <+: evs ∧ (playEvents stopTick evs applied t).1 = applied ++ pre ∧
        ((playEvents stopTick evs applied t).2.2 = false → pre = evs) := by
  induction evs with
  | nil =>
    intro applied t
    exact ⟨[], by simp, by simp [playEvents], fun _ => rfl⟩
  | cons e rest ih =>
    intro applied t
    rcases Bool.eq_false_or_eq_true (stopObserved stopTick t) with hs | hs
    · refine ⟨[], ⟨e :: rest, rfl⟩, by simp [playEvents, hs], ?_⟩
      intro hb
      simp [playEvents, hs] at hb
    · by_cases hd : 0 < e.delay
      · rcases Bool.eq_false_or_eq_true (stopObserved stopTick (t + 1)) with hs1 | hs1
        · refine ⟨[], ⟨e :: rest, rfl⟩, by simp [playEvents, hs, hd, hs1], ?_⟩
          intro hb
          simp [playEvents, hs, hd, hs1] at hb
        · obtain ⟨pre, hpre, happ, hfull⟩ := ih (applied ++ [e]) (t + 2)
          refine ⟨e :: pre, ?_, ?_, ?_⟩
          · obtain ⟨rest', hrest'⟩ := hpre
            exact ⟨rest', by simp [hrest']⟩
          · simp only [playEvents, hs, hd, hs1, Bool.false_eq_true, if_false, if_true,
              ite_true, ite_false]
            simpa using happ
          · intro hb
            simp only [playEvents, hs, hd, hs1, Bool.false_eq_true, if_false, if_true,
              ite_true, ite_false] at hb
            simp [hfull hb]
      · obtain ⟨pre, hpre, happ, hfull⟩ := ih (applied ++ [e]) (t + 1)
        refine ⟨e :: pre, ?_, ?_, ?_⟩
        · obtain ⟨rest', hrest'⟩ := hpre
          exact ⟨rest', by simp [hrest']⟩
        · simp only [playEvents, hs, hd, Bool.false_eq_true, if_false, if_true,
            ite_true, ite_false]
          simpa using happ
        · intro hb
          simp only [playEvents, hs, hd, Bool.false_eq_true, if_false, if_true,
            ite_true, ite_false] at hb
          simp [hfull hb]

theorem playEvents_no_stop (evs : List MacroEvent) :
    ∀ applied : List MacroEvent, ∀ t : Nat,
      (playEvents none evs applied t).2.2 = false := by
  induction evs with
  | nil =>
    intro applied t
    simp [playEvents]
  | cons e rest ih =>
    intro applied t
    by_cases hd : 0 < e.delay <;> simp [playEvents, stopObserved, hd, ih]

theorem playLoops_no_stop (events : List MacroEvent) :
    ∀ n : Nat, ∀ applied : List MacroEvent, ∀ t : Nat,
      (playLoops none events n applied t).2.2 = false := by
  intro n
  induction n with
  | zero =>
    intro applied t
    simp [playLoops]
  | succ n ih =>
    intro applied t
    simp [playLoops, stopObserved, playEvents_no_stop, ih]

theorem playLoops_spec (stopTick : Option Nat) (events : List MacroEvent) :
    ∀ n : Nat, ∀ applied : List MacroEvent, ∀ t : Nat,
      (∃ rest, (playLoops stopTick events n applied t).1 ++ rest =
        applied ++ (List.replicate n events).join) ∧
      ((playLoops stopTick events n applied t).2.2 = false →
        (playLoops stopTick events n applied t).1 =
          applied ++ (List.replicate n events).join) := by
  intro n
  induction n with
  | zero =>
    intro applied t
    exact ⟨⟨[], by simp [playLoops]⟩, fun _ => by simp [playLoops]⟩
  | succ n ih =>
    intro applied t
    rcases Bool.eq_false_or_eq_true (stopObserved stopTick t) with hs | hs
    · refine ⟨⟨(List.replicate (n + 1) events).join, by simp [playLoops, hs]⟩, ?_⟩
      intro hb
      simp [playLoops, hs] at hb
    · obtain ⟨pre, hpre, happ, hfull⟩ := playEvents_spec stopTick events applied (t + 1)
      rcases Bool.eq_false_or_eq_true
        ((playEvents stopTick events applied (t + 1)).2.2) with hb | hb
      · -- inner pass broke
        obtain ⟨suf, hsuf⟩ := hpre
        refine ⟨⟨suf ++ (List.replicate n events).join, ?_⟩, ?_⟩
        · simp only [playLoops, hs, hb, Bool.false_eq_true, if_false, if_true,
            ite_true, ite_false, List.replicate_succ, List.join_cons]
          rw [happ]
          simp [← hsuf]
        · intro hb'
          simp only [playLoops, hs, hb, Bool.false_eq_true, if_false, if_true,
            ite_true, ite_false] at hb'
          exact absurd hb' (by decide)
      · -- inner pass completed: pre = events
        rw [hfull hb] at happ
        obtain ⟨⟨rest, hrest⟩, hfull'⟩ :=
          ih (playEvents stopTick events applied (t + 1)).1
            (playEvents stopTick events applied (t + 1)).2.1
        refine ⟨⟨rest, ?_⟩, ?_⟩
        · simp only [playLoops, hs, hb, Bool.false_eq_true, if_false, if_true,
            ite_true, ite_false, List.replicate_succ, List.join_cons]
          rw [hrest, happ]
          simp
        · intro hb'
          simp only [playLoops, hs, hb, Bool.false_eq_true, if_false, if_true,
            ite_true, ite_false, List.replicate_succ, List.join_cons] at hb' ⊢
          rw [hfull' hb', happ]
          simp

/-- C5: in a playback run, if no cancellation is observed the applied sequence
is exactly loops copies of the events in recorded order and the terminal
reason is "Completed"; a cancellation observed at a top-of-loop check or
during an event's delay wait aborts that event, its loop and all remaining
loops - the applied sequence is a prefix of the full replication - and the
terminal reason is the externally set "Stopped" or "Emergency stop"; the
reason is "Completed" exactly when the run was never cancelled, and with the
stop event never set the run is never cancelled. The two coupling hypotheses
state that the stop event is set only by the stop paths, which write the
reason before setting it, and that an unset stop event leaves the reason at
"Playing". -/
theorem macro_playback_order_and_reason (stopTick : Option Nat)
    (events : List MacroEvent) (loops : Nat) (reasonIn : String)
    (hcoup : (playLoops stopTick events loops [] 0).2.2 = true →
      reasonIn = "Stopped" ∨ reasonIn = "Emergency stop")
    (huncoup : (playLoops stopTick events loops [] 0).2.2 = false →
      reasonIn = "Playing") :
    ((macroPlayWorker stopTick events loops reasonIn).2.1 = false →
      (macroPlayWorker stopTick events loops reasonIn).1 =
        (List.replicate loops events).join ∧
      (macroPlayWorker stopTick events loops reasonIn).2.2 = "Completed") ∧
    ((macroPlayWorker stopTick events loops reasonIn).2.1 = true →
      (macroPlayWorker stopTick events loops reasonIn).1 <+:
        (List.replicate loops events).join ∧
      ((macroPlayWorker stopTick events loops reasonIn).2.2 = "Stopped" ∨
        (macroPlayWorker stopTick events loops reasonIn).2.2 = "Emergency stop")) ∧
    ((macroPlayWorker stopTick events loops reasonIn).2.2 = "Completed" ↔
      (macroPlayWorker stopTick events loops reasonIn).2.1 = false) ∧
    (stopTick = none → (macroPlayWorker stopTick events loops reasonIn).2.1 = false) := by
  obtain ⟨⟨rest, hrest⟩, hfull⟩ := playLoops_spec stopTick events loops [] 0
  rcases Bool.eq_false_or_eq_true ((playLoops stopTick events loops [] 0).2.2) with hb | hb
  · -- a cancellation was observed
    have hreason := hcoup hb
    have hw : macroPlayWorker stopTick events loops reasonIn =
        ((playLoops stopTick events loops [] 0).1, true, reasonIn) := by
      simp [macroPlayWorker, hb]
    refine ⟨?_, ?_, ?_, ?_⟩
    · intro hc
      rw [hw] at hc
      simp at hc
    · intro _
      rw [hw]
      refine ⟨⟨rest, by simpa using hrest⟩, by simpa using hreason⟩
    · rw [hw]
      constructor
      · intro hc
        rcases hreason with h | h <;> rw [h] at hc <;> simp at hc
      · intro hc
        simp at hc
    · intro hnone
      rw [hnone] at hb
      rw [playLoops_no_stop] at hb
      exact absurd hb (by decide)
  · -- no cancellation: all loops completed
    have hreason := huncoup hb
    have hw : macroPlayWorker stopTick events loops reasonIn =
        ((playLoops stopTick events loops [] 0).1, false, "Completed") := by
      simp [macroPlayWorker, hb, hreason]
    refine ⟨?_, ?_, ?_, ?_⟩
    · intro _
      rw [hw]
      exact ⟨by simpa using hfull hb, rfl⟩
    · intro hc
      rw [hw] at hc
      simp at hc
    · rw [hw]
      simp
    · intro _
      rw [hw]

theorem macro_playback_order_and_reason_witness :
    ((playLoops none [{ kind := "key", action := "press", delay := 1 },
        { kind := "key", action := "release", delay := 0 }] 2 [] 0).2.2 = true →
      "Playing" = "Stopped" ∨ "Playing" = "Emergency stop") ∧
    ((playLoops none [{ kind := "key", action := "press", delay := 1 },
        { kind := "key", action := "release", delay := 0 }] 2 [] 0).2.2 = false →
      "Playing" = "Playing") ∧
    (macroPlayWorker none [{ kind := "key", action := "press", delay := 1 },
        { kind := "key", action := "release", delay := 0 }] 2 "Playing").1 =
      (List.replicate 2 [{ kind := "key", action := "press", delay := 1 },
        ({ kind := "key", action := "release", delay := 0 } : MacroEvent)]).join ∧
    (macroPlayWorker none [{ kind := "key", action := "press", delay := 1 },
        { kind := "key", action := "release", delay := 0 }] 2 "Playing").2.2 =
      "Completed" := by
  have h := macro_playback_order_and_reason none
    [{ kind := "key", action := "press", delay := 1 },
     { kind := "key", action := "release", delay := 0 }] 2 "Playing"
    (by simp [playLoops_no_stop]) (fun _ => rfl)
  obtain ⟨happ, hreason⟩ := h.1 (h.2.2.2 rfl)
  exact ⟨by simp [playLoops_no_stop], fun _ => rfl, happ, hreason⟩
